import Mathlib

/-!
# vaas-backend: the call-completion webhook (`src/index.js`)

A shallow embedding of the two functions of `src/index.js` that carry the logic of the service,
`extractFromTranscript` (lines 21-72) and the `POST /vapi-webhook` handler (lines 74-142),
together with the fragment of JavaScript they rely on: strings as sequences of UTF-16 code
units, the values `JSON.parse` produces, truthiness, property access, `ToString`, and
`parseInt(_, 10)`.  Integral Numbers are modelled exactly: an integer is rounded to the nearest
double (ties to even, `Infinity` on overflow), and `Number::toString` prints the shortest
numeral that reads back, in exponent form from `1e21` on.

The outside world enters through `Env`: the extraction capability (the chat-completion request
of lines 26-50), the store (`supabase.from("vapi_call").insert`), the clock, and the two
locale-independent case mappings of `String.prototype`.  A run of the handler is the HTTP
response together with the requests sent to the capability and the records handed to the store.
-/

namespace Vaas

/-! ## Strings -/

/-- A JavaScript string: its sequence of UTF-16 code units.  `length` and `slice` count code
units, as `String.prototype.length` and `String.prototype.slice` do. -/
abbrev JStr := List Nat

/-- The code units of a literal; every literal of the program is in the Basic Multilingual
Plane, where a code point is one code unit. -/
def lit (s : String) : JStr := s.toList.map Char.toNat

/-- Models `String.prototype.slice(start)` with the end omitted: a negative `start` counts from
the end and is clamped at 0, a non-negative one is clamped at the length. -/
def slice (s : JStr) (start : Int) : JStr :=
  let len : Int := s.length
  let k : Int := if start < 0 then max (len + start) 0 else min start len
  s.drop k.toNat

/-- Models `Array.prototype.join(sep)` on an array of strings. -/
def join (sep : JStr) : List JStr → JStr
  | [] => []
  | [x] => x
  | x :: y :: rest => x ++ sep ++ join sep (y :: rest)

/-- Case mapping of one code unit on the ASCII letters, lower-casing. -/
def asciiLowerUnit (c : Nat) : Nat := if 65 ≤ c ∧ c ≤ 90 then c + 32 else c

/-- Case mapping of one code unit on the ASCII letters, upper-casing. -/
def asciiUpperUnit (c : Nat) : Nat := if 97 ≤ c ∧ c ≤ 122 then c - 32 else c

/-- What `toLowerCase` does to a string of ASCII characters. -/
def asciiLower (s : JStr) : JStr := s.map asciiLowerUnit

/-- What `toUpperCase` does to a string of ASCII characters. -/
def asciiUpper (s : JStr) : JStr := s.map asciiUpperUnit

/-! ## Numbers -/

/-- Decimal digits of a natural number, most significant first, as code units. -/
def digitsAux : Nat → Nat → JStr → JStr
  | 0, _, acc => acc
  | fuel + 1, n, acc =>
    if n < 10 then (48 + n) :: acc else digitsAux fuel (n / 10) ((48 + n % 10) :: acc)

/-- The decimal numeral of a natural number. -/
def natToString (n : Nat) : JStr := digitsAux (n + 1) n []

/-- The plain decimal numeral of an integer, with a leading `-` when negative: the text a
capability writes for an integer inside a string. -/
def intToString : Int → JStr
  | .ofNat n => natToString n
  | .negSucc n => 45 :: natToString (n + 1)

/-- The number of binary digits of a natural number, by halving. -/
def bitLengthAux : Nat → Nat → Nat
  | 0, _ => 0
  | fuel + 1, m => if m = 0 then 0 else bitLengthAux fuel (m / 2) + 1

/-- The number of binary digits of a natural number: 0 for 0, and `k` when
`2^(k-1) <= m < 2^k`. -/
def bitLength (m : Nat) : Nat := bitLengthAux m m

/-- The quotient of `m` by `2^e`, rounded to the nearest integer, a tie going to the even
one. -/
def roundShift (m e : Nat) : Nat :=
  let q := m >>> e
  let r := m - q <<< e
  let half := 1 <<< (e - 1)
  if half < r ∨ (r = half ∧ q % 2 = 1) then q + 1 else q

/-- The Number value of a natural number: the nearest double (53 bits of significand, ties to
even), or `none` for `Infinity` when that takes more than 1024 binary digits.  A natural
number below `2^53` is its own Number value. -/
def roundNat (m : Nat) : Option Nat :=
  if bitLength m ≤ 53 then some m
  else
    let e := bitLength m - 53
    let v := roundShift m e <<< e
    if 1024 < bitLength v then none else some v

/-- Tells whether a natural number is a Number: rounding leaves it as it is. -/
def isDouble (m : Nat) : Bool := decide (roundNat m = some m)

/-- The search of `Number::toString` for the decimal numeral with the fewest significant
digits that still denotes `x`: with `k` significant digits, the two multiples of `10^(d-k)`
around `x` are tried, the nearer one wins when both round to `x`, a tie going to the even
digit; `d` is the number of decimal digits of `x`. -/
def shortestAux (x d : Nat) : Nat → Nat → Nat
  | 0, _ => x
  | fuel + 1, k =>
    let p := 10 ^ (d - k)
    let lo := x / p * p
    let hi := lo + p
    if roundNat lo = some x then
      if roundNat hi = some x then
        if x - lo < hi - x then lo
        else if hi - x < x - lo then hi
        else if x / p % 2 = 0 then lo else hi
      else lo
    else if roundNat hi = some x then hi
    else shortestAux x d fuel (k + 1)

/-- The integer whose numeral `Number::toString` prints for the integral Number `x`: the one
with the fewest significant digits among those that round to `x`. -/
def shortest (x : Nat) : Nat :=
  shortestAux x (natToString x).length (natToString x).length 1

/-- The exponent form of `Number::toString` for an integer of more than 21 digits: the
significant digits with a point after the first, then `e+` and the decimal exponent. -/
def exponentForm (v : Nat) : JStr :=
  match ((natToString v).reverse.dropWhile (fun c => c = 48)).reverse with
  | [] => []
  | [c] => c :: (lit "e+" ++ natToString ((natToString v).length - 1))
  | c :: rest => c :: 46 :: (rest ++ lit "e+" ++ natToString ((natToString v).length - 1))

/-- Models `Number::toString(x, 10)` on a non-negative integral Number: plain digits up to 21
of them, the exponent form beyond. -/
def natNumberToString (x : Nat) : JStr :=
  if shortest x < 10 ^ 21 then natToString (shortest x) else exponentForm (shortest x)

/-- A JavaScript Number other than NaN (`JSON.parse` never produces NaN, and the program lets
no NaN through).

* `int n` is the integral Number of value `n`; `n` has to be a Number (`isDouble`), and `-0`
  is identified with `0`.
* `inf negative` is `Infinity` or `-Infinity`.
* `other r` is a Number with a fractional part, such as `2.5`, identified by `r`, the string
  `Number::toString` prints for it.  Such a number is never zero. -/
inductive JNum where
  | int (n : Int)
  | inf (negative : Bool)
  | other (rendering : JStr)
  deriving DecidableEq

/-- Models `Number::toString(x, 10)`. -/
def JNum.toStr : JNum → JStr
  | .int (.ofNat n) => natNumberToString n
  | .int (.negSucc n) => 45 :: natNumberToString (n + 1)
  | .inf false => lit "Infinity"
  | .inf true => lit "-Infinity"
  | .other r => r

/-! ## Values -/

/-- A JavaScript value as it occurs in this program: `undefined`, or a value of the shapes
`JSON.parse` and the body parser build.  An object is the list of its own properties; reading
a property takes the first entry with that name. -/
inductive JVal where
  | undefined
  | null
  | bool (b : Bool)
  | num (x : JNum)
  | str (s : JStr)
  | arr (items : List JVal)
  | obj (props : List (JStr × JVal))

/-- The own property `key` of a property list. -/
def lookup (key : JStr) : List (JStr × JVal) → Option JVal
  | [] => none
  | (k, v) :: rest => if k = key then some v else lookup key rest

/-- Models `ToBoolean`: `undefined`, `null`, `false`, `0` and the empty string are falsy,
everything else (every array and object included) is truthy. -/
def truthy : JVal → Bool
  | .undefined => false
  | .null => false
  | .bool b => b
  | .num (.int n) => n ≠ 0
  | .num (.inf _) => true
  | .num (.other _) => true
  | .str s => !s.isEmpty
  | .arr _ => true
  | .obj _ => true

/-- Models `a || b`. -/
def orElse (a b : JVal) : JVal := if truthy a then a else b

/-- Models the property read `v.key`, for the names this program reads (`message`, `status`,
`assistant`, `name`, `call`, `artifact`, `messages`, `role`, `content`, `caller_name`,
`phone_number`, `order`, `quantity`): none of them is an array index or defined on a built-in
prototype, so the read finds an own property of an object or yields `undefined`.  Reading a
property of `undefined` or `null` throws a TypeError: `none`. -/
def getProp (v : JVal) (key : JStr) : Option JVal :=
  match v with
  | .undefined => none
  | .null => none
  | .obj props => some ((lookup key props).getD .undefined)
  | _ => some .undefined

/-- Models the optional read `v?.key`: `undefined` when `v` is `undefined` or `null`. -/
def getOpt (v : JVal) (key : JStr) : JVal :=
  (getProp v key).getD .undefined

/-- Combines an element with the rest of a joined array, `none` when either conversion
threw. -/
def joinWith (a b : Option JStr) : Option JStr :=
  match a, b with
  | some x, some y => some (x ++ lit "," ++ y)
  | _, _ => none

mutual
/-- Models `ToString(v)`, `none` when it throws.  A primitive converts to its text.  An array
converts through `Array.prototype.join`.  An object converts through `OrdinaryToPrimitive`:
`Object.prototype.toString` gives `[object Object]`, unless the object has an own property
named `toString`, which shadows it; parsed JSON holds no function, so that property is not
callable, `valueOf` returns the object itself, and the conversion throws a TypeError. -/
def toStr : JVal → Option JStr
  | .undefined => some (lit "undefined")
  | .null => some (lit "null")
  | .bool true => some (lit "true")
  | .bool false => some (lit "false")
  | .num x => some x.toStr
  | .str s => some s
  | .arr items => joinItems items
  | .obj props =>
    match lookup (lit "toString") props with
    | some _ => none
    | none => some (lit "[object Object]")
termination_by structural v => v
/-- Models `Array.prototype.join(",")`: `undefined` and `null` elements give the empty string,
the others convert through `ToString`. -/
def joinItems : List JVal → Option JStr
  | [] => some []
  | [.undefined] => some []
  | [.null] => some []
  | [x] => toStr x
  | .undefined :: rest => joinWith (some []) (joinItems rest)
  | .null :: rest => joinWith (some []) (joinItems rest)
  | x :: rest => joinWith (toStr x) (joinItems rest)
termination_by structural l => l
end

/-! ## `parseInt(_, 10)` -/

/-- The code units `parseInt` skips at the start of its input: ECMAScript WhiteSpace and
LineTerminator. -/
def isWhiteSpace (c : Nat) : Bool :=
  c = 9 || c = 10 || c = 11 || c = 12 || c = 13 || c = 32 || c = 160 || c = 5760 ||
  (8192 ≤ c && c ≤ 8202) || c = 8232 || c = 8233 || c = 8239 || c = 8287 || c = 12288 ||
  c = 65279

/-- Tells whether a code unit is one of `0` to `9`. -/
def isDigit (c : Nat) : Bool := 48 ≤ c && c ≤ 57

/-- The value of the decimal numeral `acc` followed by the leading digits of the input. -/
def digitsValue (acc : Nat) : JStr → Nat
  | [] => acc
  | c :: rest => if isDigit c then digitsValue (10 * acc + (c - 48)) rest else acc

/-- The value of the longest prefix of decimal digits, `none` (NaN) when it is empty. -/
def parseDigits : JStr → Option Nat
  | [] => none
  | c :: rest => if isDigit c then some (digitsValue 0 (c :: rest)) else none

/-- The Number of a sign and the integer a numeral denotes: the integer rounded to the
nearest double, `Infinity` beyond the range of doubles. -/
def numberOfNat (negative : Bool) (m : Nat) : JNum :=
  match roundNat m with
  | some v => .int (if negative then -(v : Int) else (v : Int))
  | none => .inf negative

/-- Models `parseInt(s, 10)` on a string: leading white space is skipped, one sign is read,
then the longest run of decimal digits; `none` is NaN.  The result is the Number value of
the integer the digits denote. -/
def parseIntStr (s : JStr) : Option JNum :=
  match s.dropWhile isWhiteSpace with
  | [] => none
  | c :: rest =>
    if c = 45 then (parseDigits rest).map (numberOfNat true)
    else if c = 43 then (parseDigits rest).map (numberOfNat false)
    else (parseDigits (c :: rest)).map (numberOfNat false)

/-- Models `parseInt(v, 10)` on any value: the outer `none` is the TypeError of `ToString`,
the inner one is NaN. -/
def parseInt (v : JVal) : Option (Option JNum) :=
  (toStr v).map parseIntStr

/-! ## The extractor (`extractFromTranscript`, lines 21-72) -/

/-- The four fields `extractFromTranscript` returns.  The three text fields hold whatever value
the `||` of lines 58-60 selects, `quantity` holds a Number that passed `!isNaN`. -/
structure ExtractionResult where
  caller_name : JVal
  phone_number : JVal
  order : JVal
  quantity : JNum

/-- The object of the `catch` branch, lines 65-70. -/
def unknownResult : ExtractionResult :=
  { caller_name := .str (lit "Unknown"), phone_number := .str (lit "Unknown"),
    order := .str (lit "Unknown"), quantity := .int 1 }

/-- The two messages of the chat-completion request, lines 31-41. -/
structure Request where
  system : JStr
  user : JStr

/-- The fixed instruction of line 35. -/
def systemInstruction : JStr :=
  lit "You are an AI that extracts order details from a phone call transcript. Return a JSON with these fields: caller_name, phone_number, order, quantity. Use \x27Unknown\x27 if something is missing."

/-- The request built around a transcript window, lines 28-43. -/
def requestFor (transcript : JStr) : Request :=
  { system := systemInstruction, user := lit "Transcript:\n\n" ++ transcript }

/-- What lines 26-53 can end in.
* `requestThrows`: `axios.post` rejects (network error, non-2xx status, timeout), or the
  response has no `data.choices[0].message.content` to read;
* `notJSON`: `JSON.parse` throws on the content;
* `parsed v`: the content parses to the value `v`. -/
inductive CapabilityOutcome where
  | requestThrows
  | notJSON
  | parsed (parsedJSON : JVal)

/-- The coercion step, lines 55-62, on the parsed value; `none` when it throws (reading
`quantity` off `null`, or `ToString` inside `parseInt`). -/
def coerce (parsedJSON : JVal) : Option ExtractionResult :=
  match getProp parsedJSON (lit "quantity") with
  | none => none
  | some q =>
    match parseInt q with
    | none => none
    | some quantityInt =>
      some
        { caller_name := orElse (getOpt parsedJSON (lit "caller_name")) (.str (lit "Unknown")),
          phone_number := orElse (getOpt parsedJSON (lit "phone_number")) (.str (lit "Unknown")),
          order := orElse (getOpt parsedJSON (lit "order")) (.str (lit "Unknown")),
          quantity := match quantityInt with
            | some n => n
            | none => .int 1 }

/-- The `try`/`catch` of lines 24-71 after the request has come back: every throw lands in
the `catch`, which returns `unknownResult`. -/
def finish : CapabilityOutcome → ExtractionResult
  | .requestThrows => unknownResult
  | .notJSON => unknownResult
  | .parsed parsedJSON => (coerce parsedJSON).getD unknownResult

/-- Models `extractFromTranscript`: the request it sends to the capability, and the object it
returns. -/
def extractFromTranscript (capability : Request → CapabilityOutcome) (raw_transcript : JStr) :
    Request × ExtractionResult :=
  let transcript := slice raw_transcript (-3000)
  let request := requestFor transcript
  (request, finish (capability request))

/-- The object literal of lines 57-62 as a value, to be read back by the coercion step. -/
def ExtractionResult.toJSON (r : ExtractionResult) : JVal :=
  .obj [(lit "caller_name", r.caller_name), (lit "phone_number", r.phone_number),
    (lit "order", r.order), (lit "quantity", .num r.quantity)]

/-! ## The webhook handler (lines 74-142) -/

/-- The row of line 117, `dataToInsert`. -/
structure CallRecord where
  created_at : JStr
  caller_name : JVal
  phone_number : JVal
  order : JVal
  quantity : JNum
  business_name : JVal
  call_length : Nat
  raw_transcript : JStr

/-- What `await supabase.from("vapi_call").insert([dataToInsert])` can end in: a rejection (or
a result that cannot be destructured), or a result whose `error` member is read at line 130. -/
inductive StoreOutcome where
  | throws
  | returned (error : JVal)

/-- The collaborators of the handler. -/
structure Env where
  /-- `String.prototype.toLowerCase` -/
  toLowerCase : JStr → JStr
  /-- `String.prototype.toUpperCase` -/
  toUpperCase : JStr → JStr
  /-- `new Date().toISOString()` at line 90 -/
  now : JStr
  /-- the chat-completion endpoint: what a request ends in -/
  capability : Request → CapabilityOutcome
  /-- the store: what inserting a row ends in -/
  insert : CallRecord → StoreOutcome

/-- The responses the handler sends. -/
inductive Response where
  /-- `res.status(200).send("Ignored")`, line 80 -/
  | ignored
  /-- `res.status(200).send("Non-final status, no insert")`, line 87 -/
  | nonFinal
  /-- `res.status(200).json(...)` with `Data stored successfully`, line 137 -/
  | stored
  /-- `res.status(500).json(...)` with `error.message`, line 134 -/
  | insertFailed (message : JVal)
  /-- `res.status(500).json(...)` with `Internal server error`, line 140 -/
  | internalError

/-- The HTTP status of a response. -/
def Response.status : Response → Nat
  | .ignored => 200
  | .nonFinal => 200
  | .stored => 200
  | .insertFailed _ => 500
  | .internalError => 500

/-- The three outcomes the service reports upstream. -/
inductive Outcome where
  | ignored
  | stored
  | failed
  deriving DecidableEq

/-- The outcome a response stands for: both early returns are the no-op acknowledgment. -/
def Response.outcome : Response → Outcome
  | .ignored => .ignored
  | .nonFinal => .ignored
  | .stored => .stored
  | .insertFailed _ => .failed
  | .internalError => .failed

/-- One run of the handler: its response, the requests it sent to the capability and the rows
it handed to the store, in order. -/
structure Run where
  response : Response
  sent : List Request
  inserted : List CallRecord

/-- The list of line 84. -/
def finalStatuses : List JStr := [lit "end", lit "ended", lit "completed"]

/-- Models `status?.toLowerCase()` of line 83: `undefined` for `undefined` and `null`, the
lower-cased text for a string, and a TypeError (`none`) for any other value, which has no
callable `toLowerCase`. -/
def lowerStatus (env : Env) : JVal → Option JVal
  | .undefined => some .undefined
  | .null => some .undefined
  | .str s => some (.str (env.toLowerCase s))
  | _ => none

/-- Models `finalStatuses.includes(status)`. -/
def includes (xs : List JStr) : JVal → Bool
  | .str s => decide (s ∈ xs)
  | _ => false

/-- The callback of line 100 on one element: `none` when it throws (the element is `null`,
`role` is not a string, or the text does not convert to a string). -/
def renderLine (env : Env) (m : JVal) : Option JStr :=
  match getProp m (lit "role") with
  | some (.str role) =>
    match toStr (orElse (orElse (getOpt m (lit "message")) (getOpt m (lit "content")))
        (.str [])) with
    | some text => some (env.toUpperCase role ++ lit ": " ++ text)
    | none => none
  | _ => none

/-- Models `messages.map(...)` of lines 99-100 on the elements of an array. -/
def renderLines (env : Env) : List JVal → Option (List JStr)
  | [] => some []
  | m :: rest =>
    match renderLine env m, renderLines env rest with
    | some line, some lines => some (line :: lines)
    | _, _ => none

/-- Where lines 78-103 leave the handler. -/
inductive Prepared where
  /-- the early return of line 80 -/
  | ignored
  /-- the early return of line 87 -/
  | nonFinal
  /-- `business_name` and `raw_transcript` are computed -/
  | ready (business_name : JVal) (raw_transcript : JStr)

/-- Lines 78-103; `none` when a TypeError is thrown on the way. -/
def prepare (env : Env) (payload : JVal) : Option Prepared :=
  if !truthy payload then some .ignored
  else
    match getProp payload (lit "message") with
    | none => none
    | some message =>
      if !truthy message then some .ignored
      else
        match lowerStatus env (getOpt message (lit "status")) with
        | none => none
        | some status =>
          if !includes finalStatuses status then some .nonFinal
          else
            let assistantName :=
              orElse
                (orElse (getOpt (getOpt message (lit "assistant")) (lit "name"))
                  (getOpt (getOpt (getOpt payload (lit "call")) (lit "assistant")) (lit "name")))
                (.str (lit "Unknown"))
            let messages :=
              orElse (getOpt (getOpt message (lit "artifact")) (lit "messages")) (.arr [])
            match messages with
            | .arr items =>
              match renderLines env items with
              | some lines => some (.ready assistantName (join (lit "\n") lines))
              | none => none
            | _ => none

/-- Models the handler of `POST /vapi-webhook`.  A throw inside the `try` is caught at line
138 and answered with the internal error. -/
def handler (env : Env) (payload : JVal) : Run :=
  match prepare env payload with
  | none => { response := .internalError, sent := [], inserted := [] }
  | some .ignored => { response := .ignored, sent := [], inserted := [] }
  | some .nonFinal => { response := .nonFinal, sent := [], inserted := [] }
  | some (.ready business_name raw_transcript) =>
    let transcriptLength := raw_transcript.length
    let extraction := extractFromTranscript env.capability raw_transcript
    let dataToInsert : CallRecord :=
      { created_at := env.now
        caller_name := extraction.2.caller_name
        phone_number := extraction.2.phone_number
        order := extraction.2.order
        quantity := extraction.2.quantity
        business_name := business_name
        call_length := transcriptLength
        raw_transcript := raw_transcript }
    match env.insert dataToInsert with
    | .throws =>
      { response := .internalError, sent := [extraction.1], inserted := [dataToInsert] }
    | .returned error =>
      if truthy error then
        { response := .insertFailed (getOpt error (lit "message")), sent := [extraction.1],
          inserted := [dataToInsert] }
      else { response := .stored, sent := [extraction.1], inserted := [dataToInsert] }

/-! ## Notions of the specification -/

/-- Tells whether a value is a string. -/
def JVal.isStr : JVal → Bool
  | .str _ => true
  | _ => false

/-- Tells whether a value is `undefined` or `null`. -/
def JVal.isNullish : JVal → Bool
  | .undefined => true
  | .null => true
  | _ => false

/-- Tells whether a value is an integral Number that is at least 0. -/
def JVal.isNonNegInt : JVal → Bool
  | .num (.int n) => decide (0 ≤ n) && isDouble n.natAbs
  | _ => false

/-- The type invariant the specification states for `ExtractionResult`: the three text fields
are strings and `quantity` is an integer that is at least 0. -/
def satisfiesInvariant (r : ExtractionResult) : Prop :=
  r.caller_name.isStr = true ∧ r.phone_number.isStr = true ∧ r.order.isStr = true ∧
    (JVal.num r.quantity).isNonNegInt = true

/-- An already-valid `ExtractionResult`-shaped JSON object, in the words of the specification:
`caller_name`, `phone_number` and `order` are strings, `quantity` is an integer `>= 0`. -/
def validShape (props : List (JStr × JVal)) : Bool :=
  ((lookup (lit "caller_name") props).getD .undefined).isStr &&
  ((lookup (lit "phone_number") props).getD .undefined).isStr &&
  ((lookup (lit "order") props).getD .undefined).isStr &&
  ((lookup (lit "quantity") props).getD .undefined).isNonNegInt

/-- The four values of a result are those of the object it was coerced from. -/
def sameFourValues (props : List (JStr × JVal)) (r : ExtractionResult) : Prop :=
  some r.caller_name = lookup (lit "caller_name") props ∧
  some r.phone_number = lookup (lit "phone_number") props ∧
  some r.order = lookup (lit "order") props ∧
  some (JVal.num r.quantity) = lookup (lit "quantity") props

/-- The value of `parsedJSON.key` for an object with the given properties: `undefined` when
the property is absent. -/
def parsedField (props : List (JStr × JVal)) (key : JStr) : JVal :=
  (lookup key props).getD .undefined

/-! ## Sample inputs -/

/-- A reply whose `caller_name` is a number and whose `quantity` reads as a negative
integer. -/
def negativeQuantityReply : JVal :=
  .obj [(lit "caller_name", .num (.int 5)), (lit "phone_number", .str (lit "555-1234")),
    (lit "order", .str (lit "pizza")), (lit "quantity", .str (lit "-3"))]

/-- A reply of the valid shape whose `caller_name` is the empty string. -/
def emptyNameProps : List (JStr × JVal) :=
  [(lit "caller_name", .str []), (lit "phone_number", .str (lit "555-1234")),
    (lit "order", .str (lit "pizza")), (lit "quantity", .num (.int 2))]

/-- A reply of the valid shape with no empty field. -/
def johnProps : List (JStr × JVal) :=
  [(lit "caller_name", .str (lit "John")), (lit "phone_number", .str (lit "555-1234")),
    (lit "order", .str (lit "pizza")), (lit "quantity", .num (.int 2))]

/-- A reply whose `quantity` is an object with an own property named `toString`. -/
def shadowedQuantityProps : List (JStr × JVal) :=
  [(lit "caller_name", .str (lit "John")), (lit "phone_number", .str (lit "555-1234")),
    (lit "order", .str (lit "pizza")),
    (lit "quantity", .obj [(lit "toString", .num (.int 2))])]

/-- A webhook payload with the given `message.status`, `message.assistant`, `call` and
`message.artifact.messages`. -/
def payloadOf (status assistant call : JVal) (messages : List JVal) : JVal :=
  .obj [(lit "message", .obj [(lit "status", status), (lit "assistant", assistant),
      (lit "artifact", .obj [(lit "messages", .arr messages)])]),
    (lit "call", call)]

/-- An object with the single property `name`. -/
def named (name : JVal) : JVal := .obj [(lit "name", name)]

/-- A transcript line with a `role` and a `message`. -/
def lineOf (role message : JStr) : JVal :=
  .obj [(lit "role", .str (role)), (lit "message", .str message)]

/-- An environment with the ASCII case mappings, a fixed clock, and the given capability and
store. -/
def envWith (capability : Request → CapabilityOutcome) (insert : CallRecord → StoreOutcome) :
    Env :=
  { toLowerCase := asciiLower, toUpperCase := asciiUpper, now := lit "2024-05-01T12:00:00.000Z",
    capability := capability, insert := insert }

/-- An environment whose capability is unreachable and whose store accepts every row. -/
def sampleEnv : Env := envWith (fun _ => .requestThrows) (fun _ => .returned .null)

/-- A finished call whose only transcript line has a `message` and no `role`. -/
def missingRolePayload : JVal :=
  payloadOf (.str (lit "ended")) (named (.str (lit "Pizza Place"))) .undefined
    [.obj [(lit "message", .str (lit "two pizzas please"))]]

/-- A finished call whose only transcript line has a `role` and neither `message` nor
`content`. -/
def missingTextPayload : JVal :=
  payloadOf (.str (lit "ended")) (named (.str (lit "Pizza Place"))) .undefined
    [.obj [(lit "role", .str (lit "user"))]]

/-- A finished call with no `artifact` at all. -/
def missingArtifactPayload : JVal :=
  .obj [(lit "message", .obj [(lit "status", .str (lit "ended"))])]

/-- A payload whose `message.status` is the number 5. -/
def numericStatusPayload : JVal :=
  payloadOf (.num (.int 5)) (named (.str (lit "Pizza Place"))) .undefined
    [lineOf (lit "user") (lit "two pizzas please")]

/-- A payload whose `message.status` is `in-progress`. -/
def inProgressPayload : JVal :=
  payloadOf (.str (lit "in-progress")) (named (.str (lit "Pizza Place"))) .undefined
    [lineOf (lit "user") (lit "two pizzas please")]

/-- A finished call whose `message.assistant.name` is the empty string while
`call.assistant.name` is `Pizza Place`. -/
def emptyAssistantNamePayload : JVal :=
  payloadOf (.str (lit "ended")) (named (.str []))
    (.obj [(lit "assistant", named (.str (lit "Pizza Place")))])
    [lineOf (lit "user") (lit "two pizzas please")]

/-- A finished call whose two assistant names are both present and differ. -/
def twoNamesPayload : JVal :=
  payloadOf (.str (lit "ENDED")) (named (.str (lit "Pizza Place")))
    (.obj [(lit "assistant", named (.str (lit "Burger Bar")))])
    [lineOf (lit "user") (lit "I would like 2 pizzas"), lineOf (lit "bot") (lit "Got it")]

/-- A finished call whose transcript is 5000 code units long: the label `USER: ` and 4994
times the letter `a`. -/
def longPayload : JVal :=
  payloadOf (.str (lit "completed")) (named (.str (lit "Pizza Place"))) .undefined
    [lineOf (lit "user") (List.replicate 4994 97)]

/-- The row the handler builds from `twoNamesPayload` when the capability is unreachable. -/
def twoNamesRecord : CallRecord :=
  { created_at := lit "2024-05-01T12:00:00.000Z"
    caller_name := .str (lit "Unknown")
    phone_number := .str (lit "Unknown")
    order := .str (lit "Unknown")
    quantity := .int 1
    business_name := .str (lit "Pizza Place")
    call_length := 39
    raw_transcript := lit "USER: I would like 2 pizzas\nBOT: Got it" }

/-- The `role` of a transcript line, when it is a string. -/
def lineRole (m : JVal) : JStr :=
  match getOpt m (lit "role") with
  | .str role => role
  | _ => []

/-- The text of a transcript line in the words of the specification: the `message` field,
else the `content` field, else the empty string; a field that is absent or falsy is passed
over. -/
def lineText (m : JVal) : JStr :=
  if truthy (getOpt m (lit "message")) then (toStr (getOpt m (lit "message"))).getD []
  else if truthy (getOpt m (lit "content")) then (toStr (getOpt m (lit "content"))).getD []
  else []

/-- A well-formed transcript line: its `role` is a string, and the field its text is taken
from converts to a string (as every string, number and boolean does). -/
def isLine (m : JVal) : Bool :=
  (getOpt m (lit "role")).isStr &&
  (if truthy (getOpt m (lit "message")) then (toStr (getOpt m (lit "message"))).isSome
   else if truthy (getOpt m (lit "content")) then (toStr (getOpt m (lit "content"))).isSome
   else true)

/-- The last `k` code units of a string. -/
def lastUnits (k : Nat) (s : JStr) : JStr := s.drop (s.length - k)

/-- The reply of the scenario of the specification: John orders two pizzas, the quantity
comes back as the text `2`. -/
def scenarioReply : JVal :=
  .obj [(lit "caller_name", .str (lit "John")), (lit "phone_number", .str (lit "555-1234")),
    (lit "order", .str (lit "pizza")), (lit "quantity", .str (lit "2"))]

/-- A reply of the valid shape whose `quantity` is the Number `1e21`. -/
def sextillionProps : List (JStr × JVal) :=
  [(lit "caller_name", .str (lit "John")), (lit "phone_number", .str (lit "555-1234")),
    (lit "order", .str (lit "pizza")), (lit "quantity", .num (.int (10 ^ 21)))]

/-- A reply whose `quantity` is the Number `-1e21`. -/
def minusSextillionProps : List (JStr × JVal) :=
  [(lit "quantity", .num (.int (-(10 ^ 21))))]

/-- A reply whose `quantity` is the numeral of `-(2^53 + 1)`, which is not a Number. -/
def unsafeNumeralProps : List (JStr × JVal) :=
  [(lit "quantity", .str (lit "-9007199254740993"))]

/-- A reply whose `quantity` is a numeral of 310 digits. -/
def overflowProps : List (JStr × JVal) :=
  [(lit "quantity", .str (List.replicate 310 57))]

/-- A transcript line with a string `role` and, as `message`, an object with an own property
named `toString`. -/
def shadowedTextLine : JVal :=
  .obj [(lit "role", .str (lit "user")), (lit "message", .obj [(lit "toString", .num (.int 1))])]

/-- A finished call whose only transcript line is `shadowedTextLine`. -/
def shadowedTextPayload : JVal :=
  payloadOf (.str (lit "ended")) (named (.str (lit "Pizza Place"))) .undefined
    [shadowedTextLine]

/-! ## The model on sample inputs -/

theorem roundNat_samples :
    roundNat 0 = some 0 ∧ roundNat (2 ^ 53) = some (2 ^ 53) ∧
    roundNat 9007199254740993 = some 9007199254740992 ∧
    roundNat 9007199254740995 = some 9007199254740996 ∧
    roundNat (10 ^ 21) = some (10 ^ 21) ∧
    roundNat (10 ^ 23) = some 99999999999999991611392 := by
  decide

theorem numberToString_samples :
    natNumberToString 0 = lit "0" ∧ natNumberToString 100 = lit "100" ∧
    natNumberToString (2 ^ 53) = lit "9007199254740992" ∧
    natNumberToString (2 ^ 60) = lit "1152921504606847000" ∧
    roundNat 123456789012345678901 = some 123456789012345683968 ∧
    natNumberToString 123456789012345683968 = lit "123456789012345680000" ∧
    natNumberToString (10 ^ 21) = lit "1e+21" ∧
    natNumberToString 1234567890123456774144 = lit "1.2345678901234568e+21" ∧
    natNumberToString 99999999999999991611392 = lit "1e+23" ∧
    JNum.toStr (.int (-(10 ^ 21))) = lit "-1e+21" ∧
    JNum.toStr (.int (-12)) = lit "-12" := by
  decide

theorem toStr_samples :
    toStr (.arr [.str (lit "a"), .null, .arr [.bool true], .num (.int (-12))]) =
      some (lit "a,,true,-12") ∧
    toStr (.obj [(lit "quantity", .num (.int 1))]) = some (lit "[object Object]") ∧
    toStr (.obj [(lit "toString", .num (.int 1))]) = none ∧
    toStr (.num (.other (lit "2.5"))) = some (lit "2.5") := by
  decide

theorem parseInt_samples :
    parseInt (.str (lit "3")) = some (some (.int 3)) ∧
    parseInt (.str (lit "  -42abc")) = some (some (.int (-42))) ∧
    parseInt (.str (lit "+7.9")) = some (some (.int 7)) ∧
    parseInt (.str (lit "abc")) = some none ∧
    parseInt (.str (lit "- 5")) = some none ∧
    parseInt (.str []) = some none ∧
    parseInt .undefined = some none ∧
    parseInt .null = some none ∧
    parseInt (.bool true) = some none ∧
    parseInt (.num (.int 0)) = some (some (.int 0)) ∧
    parseInt (.num (.other (lit "2.5"))) = some (some (.int 2)) ∧
    parseInt (.num (.inf false)) = some none ∧
    parseInt (.num (.int (10 ^ 21))) = some (some (.int 1)) ∧
    parseInt (.num (.int (2 ^ 60))) = some (some (.int (2 ^ 60))) ∧
    parseInt (.str (lit "9007199254740993")) = some (some (.int 9007199254740992)) ∧
    parseInt (.arr [.num (.int 4), .num (.int 5)]) = some (some (.int 4)) ∧
    parseInt (.obj []) = some none ∧
    parseInt (.obj [(lit "toString", .num (.int 1))]) = none := by
  decide

set_option maxRecDepth 100000 in
/-- A numeral of 310 digits is beyond the range of doubles: `parseInt` gives `Infinity`, which
is not NaN. -/
theorem parseInt_overflow_sample :
    parseInt (.str (List.replicate 310 57)) = some (some (.inf false)) ∧
      parseInt (.str (45 :: List.replicate 310 57)) = some (some (.inf true)) := by
  decide

theorem slice_samples :
    slice (lit "abcdef") (-3) = lit "def" ∧ slice (lit "ab") (-3) = lit "ab" ∧
      slice (lit "abcdef") 2 = lit "cdef" ∧ slice (lit "ab") 5 = [] := by
  decide

theorem join_samples :
    join (lit "\n") [] = [] ∧ join (lit "\n") [lit "a"] = lit "a" ∧
      join (lit "\n") [lit "a", [], lit "b"] = lit "a\n\nb" := by
  decide

/-- The scenario of the specification: status `ENDED`, two transcript lines, and a capability
that returns the order of John with the quantity as the text `2`.  The row is stored with
quantity 2, the name John, the business name of the assistant and the length of the full
transcript. -/
theorem scenario_stored :
    handler (envWith (fun _ => .parsed scenarioReply) (fun _ => .returned .null))
        twoNamesPayload =
      { response := .stored
        sent := [requestFor (lit "USER: I would like 2 pizzas\nBOT: Got it")]
        inserted :=
          [{ created_at := lit "2024-05-01T12:00:00.000Z"
             caller_name := .str (lit "John")
             phone_number := .str (lit "555-1234")
             order := .str (lit "pizza")
             quantity := .int 2
             business_name := .str (lit "Pizza Place")
             call_length := 39
             raw_transcript := lit "USER: I would like 2 pizzas\nBOT: Got it" }] } := by
  rfl

/-- The same scenario with an unreachable capability: the row holds the defaults next to the
real transcript and its length. -/
theorem scenario_degraded :
    (handler sampleEnv twoNamesPayload).response.outcome = .stored ∧
      (handler sampleEnv twoNamesPayload).inserted = [twoNamesRecord] := by
  exact ⟨rfl, rfl⟩

/-! ## Rounding to a Number -/

theorem bitLengthAux_le_iff (fuel m k : Nat) (h : m ≤ fuel) :
    bitLengthAux fuel m ≤ k ↔ m < 2 ^ k := by
  induction fuel generalizing m k with
  | zero =>
    have : m = 0 := by omega
    subst this
    simp [bitLengthAux]
  | succ fuel ih =>
    simp only [bitLengthAux]
    split
    · rename_i h0
      subst h0
      simp
    · rename_i h0
      cases k with
      | zero => simp; omega
      | succ k =>
        rw [Nat.add_le_add_iff_right, ih (m / 2) k (by omega), pow_succ]
        omega

theorem bitLength_le_iff (m k : Nat) : bitLength m ≤ k ↔ m < 2 ^ k :=
  bitLengthAux_le_iff m m k (le_refl m)

theorem lt_bitLength_iff (m k : Nat) : k < bitLength m ↔ 2 ^ k ≤ m := by
  rw [← not_le, bitLength_le_iff, not_lt]

theorem bitLength_eq (m k : Nat) (h1 : 2 ^ k ≤ m) (h2 : m < 2 ^ (k + 1)) :
    bitLength m = k + 1 := by
  have a := (lt_bitLength_iff m k).mpr h1
  have b := (bitLength_le_iff m (k + 1)).mpr h2
  omega

theorem roundNat_of_lt (m : Nat) (h : m < 2 ^ 53) : roundNat m = some m := by
  simp [roundNat, (bitLength_le_iff m 53).mpr h]

theorem roundShift_cases (m e : Nat) :
    roundShift m e = m / 2 ^ e ∨ roundShift m e = m / 2 ^ e + 1 := by
  unfold roundShift
  simp only [Nat.shiftRight_eq_div_pow]
  split
  · exact Or.inr rfl
  · exact Or.inl rfl

theorem roundShift_exact (q e : Nat) : roundShift (q * 2 ^ e) e = q := by
  have hpos : 0 < 2 ^ e := by positivity
  have hhalf : 0 < 2 ^ (e - 1) := by positivity
  unfold roundShift
  simp only [Nat.shiftRight_eq_div_pow, Nat.shiftLeft_eq, Nat.mul_div_cancel _ hpos,
    Nat.sub_self, one_mul]
  rw [if_neg]
  rintro (h0 | ⟨h0, _⟩) <;> omega

theorem roundNat_some_inv (m v : Nat) (h : roundNat m = some v) (hb : 53 < bitLength m) :
    v = roundShift m (bitLength m - 53) * 2 ^ (bitLength m - 53) ∧ bitLength v ≤ 1024 := by
  unfold roundNat at h
  simp only [not_le.mpr hb, if_false, Nat.shiftLeft_eq] at h
  by_cases hov : 1024 < bitLength (roundShift m (bitLength m - 53) * 2 ^ (bitLength m - 53))
  · simp [hov] at h
  · simp only [hov, if_false, Option.some.injEq] at h
    subst h
    exact ⟨rfl, by omega⟩

theorem roundNat_of_exact (q e : Nat) (h1 : 2 ^ 52 ≤ q) (h2 : q < 2 ^ 53) (he : 1 ≤ e)
    (hlen : bitLength (q * 2 ^ e) ≤ 1024) : roundNat (q * 2 ^ e) = some (q * 2 ^ e) := by
  have hpos : 0 < 2 ^ e := by positivity
  have hbv : bitLength (q * 2 ^ e) = 53 + e := by
    have := bitLength_eq (q * 2 ^ e) (52 + e) (by rw [pow_add]; exact Nat.mul_le_mul_right _ h1)
      (by rw [show 52 + e + 1 = 53 + e by omega, pow_add]
          exact Nat.mul_lt_mul_of_pos_right h2 hpos)
    omega
  unfold roundNat
  simp only [hbv, show ¬ (53 + e ≤ 53) by omega, if_false, show 53 + e - 53 = e by omega,
    Nat.shiftLeft_eq, roundShift_exact q e]
  rw [hbv] at hlen
  simp [hbv, show ¬ (1024 < 53 + e) by omega]

theorem quotient_bounds (m : Nat) (hb : 53 < bitLength m) :
    2 ^ 52 ≤ m / 2 ^ (bitLength m - 53) ∧ m / 2 ^ (bitLength m - 53) < 2 ^ 53 := by
  have h1 : 2 ^ (bitLength m - 1) ≤ m := (lt_bitLength_iff m _).mp (by omega)
  have h2 : m < 2 ^ bitLength m := (bitLength_le_iff m _).mp (le_refl _)
  have e1 : bitLength m - 1 = 52 + (bitLength m - 53) := by omega
  have e2 : bitLength m = 53 + (bitLength m - 53) := by omega
  rw [e1, pow_add] at h1
  constructor
  · exact (Nat.le_div_iff_mul_le (by positivity)).mpr h1
  · rw [Nat.div_lt_iff_lt_mul (by positivity), ← pow_add, ← e2]
    exact h2

theorem roundNat_idem (m v : Nat) (h : roundNat m = some v) : roundNat v = some v := by
  by_cases hb : bitLength m ≤ 53
  · have : roundNat m = some m := by simp [roundNat, hb]
    rw [this] at h
    cases h
    exact this
  · have hb' : 53 < bitLength m := by omega
    obtain ⟨hv, hlen⟩ := roundNat_some_inv m v h hb'
    obtain ⟨hq1, hq2⟩ := quotient_bounds m hb'
    have hq' := roundShift_cases m (bitLength m - 53)
    generalize roundShift m (bitLength m - 53) = q' at hv hq'
    generalize hee : bitLength m - 53 = e at hv hq' hq1 hq2
    have he1 : 1 ≤ e := by omega
    have hq'lo : 2 ^ 52 ≤ q' := by rcases hq' with rfl | rfl <;> omega
    have hq'hi : q' ≤ 2 ^ 53 := by rcases hq' with rfl | rfl <;> omega
    rcases Nat.lt_or_eq_of_le hq'hi with hlt | heq
    · rw [hv] at hlen ⊢
      exact roundNat_of_exact q' e hq'lo hlt he1 hlen
    · have hv' : v = 2 ^ 52 * 2 ^ (e + 1) := by rw [hv, heq, pow_succ]; ring
      rw [hv'] at hlen ⊢
      exact roundNat_of_exact (2 ^ 52) (e + 1) (le_refl _) (by norm_num) (by omega) hlen

theorem roundNat_ge (m v : Nat) (h : roundNat m = some v) (hm : 10 ^ 21 ≤ m) : 10 ^ 21 ≤ v := by
  have hb' : 53 < bitLength m := (lt_bitLength_iff m 53).mpr (by
    have : (2:Nat) ^ 53 ≤ 10 ^ 21 := by norm_num
    omega)
  obtain ⟨hv, _⟩ := roundNat_some_inv m v h hb'
  obtain ⟨hq1, _⟩ := quotient_bounds m hb'
  have hq' := roundShift_cases m (bitLength m - 53)
  generalize roundShift m (bitLength m - 53) = q' at hv hq'
  generalize bitLength m - 53 = e at hv hq' hq1
  have hpos : 0 < 2 ^ e := by positivity
  have hq : m / 2 ^ e ≤ q' := by rcases hq' with rfl | rfl <;> omega
  have hvge : m / 2 ^ e * 2 ^ e ≤ v := by rw [hv]; exact Nat.mul_le_mul_right _ hq
  by_cases hle : e ≤ 21
  · have hdvd : 2 ^ e ∣ 10 ^ 21 := by
      have : (10:Nat) ^ 21 = 2 ^ 21 * 5 ^ 21 := by norm_num
      rw [this]
      exact Dvd.dvd.mul_right (pow_dvd_pow 2 hle) _
    obtain ⟨c, hc⟩ := hdvd
    have : c ≤ m / 2 ^ e := by
      rw [Nat.le_div_iff_mul_le hpos, mul_comm]
      omega
    calc 10 ^ 21 = c * 2 ^ e := by rw [hc, mul_comm]
      _ ≤ m / 2 ^ e * 2 ^ e := Nat.mul_le_mul_right _ this
      _ ≤ v := hvge
  · have h22 : 22 ≤ e := by omega
    have : (2:Nat) ^ 52 * 2 ^ 22 ≤ m / 2 ^ e * 2 ^ e :=
      Nat.mul_le_mul hq1 (Nat.pow_le_pow_right (by norm_num) h22)
    have h74 : (10:Nat) ^ 21 ≤ 2 ^ 52 * 2 ^ 22 := by norm_num
    omega

theorem roundNat_isDouble (m v : Nat) (h : roundNat m = some v) : isDouble v = true := by
  simp [isDouble, roundNat_idem m v h]

theorem shortestAux_round (x d fuel k : Nat) (hx : roundNat x = some x) :
    roundNat (shortestAux x d fuel k) = some x := by
  induction fuel generalizing k with
  | zero => exact hx
  | succ fuel ih =>
    simp only [shortestAux]
    split
    · rename_i hlo
      split
      · rename_i hhi
        split
        · exact hlo
        · split
          · exact hhi
          · split
            · exact hlo
            · exact hhi
      · exact hlo
    · split
      · rename_i hhi
        exact hhi
      · exact ih (k + 1)

/-- The numeral `Number::toString` prints denotes an integer that rounds to the Number
printed. -/
theorem shortest_round (x : Nat) (hx : roundNat x = some x) : roundNat (shortest x) = some x :=
  shortestAux_round x _ _ 1 hx

theorem natNumberToString_plain (x : Nat) (hx : roundNat x = some x) (hlt : x < 10 ^ 21) :
    natNumberToString x = natToString (shortest x) := by
  have hs : shortest x < 10 ^ 21 := by
    by_contra hge
    have := roundNat_ge (shortest x) x (shortest_round x hx) (by omega)
    omega
  unfold natNumberToString
  rw [if_pos hs]

/-! ## Numerals: `parseInt` reads back what `Number::toString` prints -/

theorem digitsAux_append (fuel n : Nat) (acc : JStr) :
    digitsAux fuel n acc = digitsAux fuel n [] ++ acc := by
  induction fuel generalizing n acc with
  | zero => simp [digitsAux]
  | succ fuel ih =>
    simp only [digitsAux]
    split
    · simp
    · rw [ih (n / 10) ((48 + n % 10) :: acc), ih (n / 10) [48 + n % 10]]
      simp

theorem digitsAux_fuel (fuel fuel2 n : Nat) (acc : JStr) (h : n < fuel) (h2 : n < fuel2) :
    digitsAux fuel n acc = digitsAux fuel2 n acc := by
  induction fuel generalizing fuel2 n acc with
  | zero => omega
  | succ fuel ih =>
    cases fuel2 with
    | zero => omega
    | succ fuel2 =>
      simp only [digitsAux]
      split
      · rfl
      · have hlt : n / 10 < n := Nat.div_lt_self (by omega) (by omega)
        exact ih fuel2 (n / 10) _ (by omega) (by omega)

theorem natToString_step (n : Nat) :
    natToString n = if n < 10 then [48 + n] else natToString (n / 10) ++ [48 + n % 10] := by
  show digitsAux (n + 1) n [] = _
  rw [digitsAux]
  split
  · rfl
  · have hlt : n / 10 < n := Nat.div_lt_self (by omega) (by omega)
    rw [digitsAux_append, digitsAux_fuel n (n / 10 + 1) (n / 10) [] hlt (by omega)]
    rfl

theorem natToString_digits (n : Nat) : ∀ c ∈ natToString n, isDigit c = true := by
  induction n using Nat.strong_induction_on with
  | _ n ih =>
    rw [natToString_step]
    split
    · intro c hc
      simp only [List.mem_singleton] at hc
      subst hc
      simp [isDigit]
      omega
    · intro c hc
      rw [List.mem_append] at hc
      rcases hc with hc | hc
      · exact ih (n / 10) (Nat.div_lt_self (by omega) (by omega)) c hc
      · simp only [List.mem_singleton] at hc
        subst hc
        simp [isDigit]
        omega

theorem digitsValue_append (xs ys : JStr) (a : Nat) (h : ∀ c ∈ xs, isDigit c = true) :
    digitsValue a (xs ++ ys) = digitsValue (digitsValue a xs) ys := by
  induction xs generalizing a with
  | nil => rfl
  | cons c rest ih =>
    have hc : isDigit c = true := h c (List.mem_cons_self _ _)
    simp only [List.cons_append, digitsValue, hc, if_true]
    exact ih _ (fun d hd => h d (List.mem_cons_of_mem _ hd))

theorem digitsValue_natToString (n : Nat) : digitsValue 0 (natToString n) = n := by
  induction n using Nat.strong_induction_on with
  | _ n ih =>
    rw [natToString_step]
    split
    · have : isDigit (48 + n) = true := by simp [isDigit]; omega
      simp [digitsValue, this]
    · have hd : isDigit (48 + n % 10) = true := by simp [isDigit]; omega
      rw [digitsValue_append _ _ _ (natToString_digits _),
        ih (n / 10) (Nat.div_lt_self (by omega) (by omega))]
      simp only [digitsValue, hd, if_true]
      omega

theorem natToString_head (n : Nat) :
    ∃ c rest, natToString n = c :: rest ∧ isDigit c = true := by
  have hmem := natToString_digits n
  cases h : natToString n with
  | nil =>
    rw [natToString_step] at h
    split at h
    · cases h
    · simp at h
  | cons c rest =>
    exact ⟨c, rest, rfl, hmem c (by rw [h]; exact List.mem_cons_self _ _)⟩

theorem parseDigits_natToString (n : Nat) : parseDigits (natToString n) = some n := by
  obtain ⟨c, rest, h, hc⟩ := natToString_head n
  have hv := digitsValue_natToString n
  rw [h] at hv ⊢
  simp only [parseDigits, hc, if_true, hv]

theorem isDigit_not_space (c : Nat) (h : isDigit c = true) :
    isWhiteSpace c = false ∧ c ≠ 45 ∧ c ≠ 43 := by
  simp only [isDigit, Bool.and_eq_true, decide_eq_true_eq] at h
  refine ⟨?_, by omega, by omega⟩
  simp only [isWhiteSpace, Bool.or_eq_false_iff, Bool.and_eq_false_iff, decide_eq_false_iff_not]
  omega

theorem parseIntStr_natToString (v : Nat) :
    parseIntStr (natToString v) = some (numberOfNat false v) ∧
      parseIntStr (45 :: natToString v) = some (numberOfNat true v) := by
  obtain ⟨c, rest, h, hc⟩ := natToString_head v
  obtain ⟨hs, h45, h43⟩ := isDigit_not_space c hc
  have hp := parseDigits_natToString v
  have h45s : isWhiteSpace 45 = false := by decide
  constructor
  · simp only [parseIntStr]
    rw [h] at hp ⊢
    simp [List.dropWhile, hs, h45, h43, hp]
  · simp only [parseIntStr, List.dropWhile, h45s, if_true, hp, Option.map]

theorem numberOfNat_of_round (m x : Nat) (h : roundNat m = some x) :
    numberOfNat false m = .int (x : Int) ∧ numberOfNat true m = .int (-(x : Int)) := by
  simp [numberOfNat, h]

/-- Reading back what `Number::toString` prints for an integral Number of magnitude below
`1e21` gives that Number. -/
theorem parseIntStr_toStr_int (n : Int) (hd : isDouble n.natAbs = true)
    (hlt : n.natAbs < 10 ^ 21) : parseIntStr (JNum.toStr (.int n)) = some (.int n) := by
  have hx : ∀ x : Nat, isDouble x = true → roundNat x = some x := by
    intro x h
    simpa [isDouble] using h
  cases n with
  | ofNat k =>
    have hk := hx k (by simpa using hd)
    have hlt' : k < 10 ^ 21 := by simpa using hlt
    simp only [JNum.toStr, natNumberToString_plain k hk hlt',
      (parseIntStr_natToString (shortest k)).1,
      (numberOfNat_of_round (shortest k) k (shortest_round k hk)).1]
    rfl
  | negSucc k =>
    have hk := hx (k + 1) (by simpa [Int.natAbs] using hd)
    have hlt' : k + 1 < 10 ^ 21 := by simpa [Int.natAbs] using hlt
    simp only [JNum.toStr, natNumberToString_plain (k + 1) hk hlt',
      (parseIntStr_natToString (shortest (k + 1))).2,
      (numberOfNat_of_round (shortest (k + 1)) (k + 1) (shortest_round (k + 1) hk)).2]
    simp [Int.negSucc_eq]

/-- Reading back the plain numeral of an integer that is a Number gives that Number. -/
theorem parseIntStr_intToString (n : Int) (hd : isDouble n.natAbs = true) :
    parseIntStr (intToString n) = some (.int n) := by
  have hx : ∀ x : Nat, isDouble x = true → roundNat x = some x := by
    intro x h
    simpa [isDouble] using h
  cases n with
  | ofNat k =>
    have hk := hx k (by simpa using hd)
    simp only [intToString, (parseIntStr_natToString k).1, (numberOfNat_of_round k k hk).1]
    rfl
  | negSucc k =>
    have hk := hx (k + 1) (by simpa [Int.natAbs] using hd)
    simp only [intToString, (parseIntStr_natToString (k + 1)).2,
      (numberOfNat_of_round (k + 1) (k + 1) hk).2]
    simp [Int.negSucc_eq]

/-- What `parseInt` returns, when not NaN, is an integral Number or an infinity. -/
theorem parseIntStr_integral (s : JStr) (x : JNum) (h : parseIntStr s = some x) :
    (∃ n : Int, x = .int n ∧ isDouble n.natAbs = true) ∨ ∃ negative, x = .inf negative := by
  have key : ∀ (b : Bool) (m : Nat),
      (∃ n : Int, numberOfNat b m = .int n ∧ isDouble n.natAbs = true) ∨
        ∃ negative, numberOfNat b m = .inf negative := by
    intro b m
    unfold numberOfNat
    cases hr : roundNat m with
    | none => exact Or.inr ⟨b, rfl⟩
    | some v =>
      refine Or.inl ⟨_, rfl, ?_⟩
      have := roundNat_isDouble m v hr
      cases b <;> simpa using this
  unfold parseIntStr at h
  split at h
  · cases h
  · split at h
    · obtain ⟨m, _, rfl⟩ := Option.map_eq_some'.mp h
      exact key _ _
    · split at h
      · obtain ⟨m, _, rfl⟩ := Option.map_eq_some'.mp h
        exact key _ _
      · obtain ⟨m, _, rfl⟩ := Option.map_eq_some'.mp h
        exact key _ _

theorem parseInt_int (n : Int) (hd : isDouble n.natAbs = true) (hlt : n.natAbs < 10 ^ 21) :
    parseInt (.num (.int n)) = some (some (.int n)) := by
  simp [parseInt, toStr, parseIntStr_toStr_int n hd hlt]

/-! ## The extractor -/

theorem truthy_orElse (a b : JVal) (hb : truthy b = true) : truthy (orElse a b) = true := by
  unfold orElse
  split <;> assumption

theorem truthy_unknown : truthy (.str (lit "Unknown")) = true := by decide

theorem not_nullish_of_truthy (v : JVal) (h : truthy v = true) : v.isNullish = false := by
  cases v <;> simp_all [truthy, JVal.isNullish]

theorem coerce_eq (v : JVal) (r : ExtractionResult) (h : coerce v = some r) :
    r.caller_name = orElse (getOpt v (lit "caller_name")) (.str (lit "Unknown")) ∧
    r.phone_number = orElse (getOpt v (lit "phone_number")) (.str (lit "Unknown")) ∧
    r.order = orElse (getOpt v (lit "order")) (.str (lit "Unknown")) ∧
    ∃ q, getProp v (lit "quantity") = some q ∧
      ((parseInt q = some (some r.quantity)) ∨ (parseInt q = some none ∧ r.quantity = .int 1)) := by
  unfold coerce at h
  cases hq : getProp v (lit "quantity") with
  | none => simp [hq] at h
  | some q =>
    cases hp : parseInt q with
    | none => simp [hq, hp] at h
    | some qi =>
      simp only [hq, hp, Option.some.injEq] at h
      subst h
      refine ⟨rfl, rfl, rfl, q, rfl, ?_⟩
      cases qi with
      | none => exact Or.inr ⟨hp, rfl⟩
      | some n => exact Or.inl hp

theorem finish_truthy (outcome : CapabilityOutcome) :
    truthy (finish outcome).caller_name = true ∧ truthy (finish outcome).phone_number = true ∧
      truthy (finish outcome).order = true := by
  have hu : truthy unknownResult.caller_name = true ∧ truthy unknownResult.phone_number = true ∧
      truthy unknownResult.order = true := by decide
  cases outcome with
  | requestThrows => exact hu
  | notJSON => exact hu
  | parsed v =>
    simp only [finish]
    cases h : coerce v with
    | none => exact hu
    | some r =>
      obtain ⟨h1, h2, h3, _⟩ := coerce_eq v r h
      simp only [Option.getD_some, h1, h2, h3]
      exact ⟨truthy_orElse _ _ truthy_unknown, truthy_orElse _ _ truthy_unknown,
        truthy_orElse _ _ truthy_unknown⟩

/-- C1: for every transcript and every outcome of the capability call, `extractFromTranscript`
returns a result in which `caller_name`, `phone_number` and `order` are present (neither
`undefined` nor `null`) next to the integer `quantity`; when the request throws or the content
is not JSON, the result is exactly `Unknown`, `Unknown`, `Unknown`, 1. -/
theorem extractFromTranscript_total (capability : Request → CapabilityOutcome)
    (raw_transcript : JStr) :
    (extractFromTranscript capability raw_transcript).2.caller_name.isNullish = false ∧
    (extractFromTranscript capability raw_transcript).2.phone_number.isNullish = false ∧
    (extractFromTranscript capability raw_transcript).2.order.isNullish = false ∧
    (capability (extractFromTranscript capability raw_transcript).1 = .requestThrows ∨
      capability (extractFromTranscript capability raw_transcript).1 = .notJSON →
      (extractFromTranscript capability raw_transcript).2 = unknownResult) := by
  obtain ⟨h1, h2, h3⟩ := finish_truthy (capability (requestFor (slice raw_transcript (-3000))))
  refine ⟨not_nullish_of_truthy _ h1, not_nullish_of_truthy _ h2, not_nullish_of_truthy _ h3, ?_⟩
  intro h
  show finish (capability (requestFor (slice raw_transcript (-3000)))) = unknownResult
  rcases h with h | h
  · have h' : capability (requestFor (slice raw_transcript (-3000))) = .requestThrows := h
    rw [h']
    rfl
  · have h' : capability (requestFor (slice raw_transcript (-3000))) = .notJSON := h
    rw [h']
    rfl

/-- Witness of C1: a capability whose content is not JSON. -/
theorem extractFromTranscript_total_witness :
    (extractFromTranscript (fun _ => CapabilityOutcome.notJSON) (lit "CALLER: hi")).2 =
      unknownResult :=
  (extractFromTranscript_total (fun _ => CapabilityOutcome.notJSON) (lit "CALLER: hi")).2.2.2
    (Or.inr rfl)

theorem finish_parsed_obj (props : List (JStr × JVal)) :
    finish (.parsed (.obj props)) =
      match parseInt ((lookup (lit "quantity") props).getD .undefined) with
      | none => unknownResult
      | some quantityInt =>
        { caller_name := orElse ((lookup (lit "caller_name") props).getD .undefined)
            (.str (lit "Unknown")),
          phone_number := orElse ((lookup (lit "phone_number") props).getD .undefined)
            (.str (lit "Unknown")),
          order := orElse ((lookup (lit "order") props).getD .undefined) (.str (lit "Unknown")),
          quantity := match quantityInt with
            | some n => n
            | none => .int 1 } := by
  simp only [finish, coerce, getProp, getOpt, Option.getD_some]
  cases parseInt ((lookup (lit "quantity") props).getD .undefined) <;> rfl

theorem finish_parsed_fields (v : JVal) :
    ((finish (.parsed v)).caller_name = .str (lit "Unknown") ∨
      (finish (.parsed v)).caller_name = getOpt v (lit "caller_name")) ∧
    ((finish (.parsed v)).phone_number = .str (lit "Unknown") ∨
      (finish (.parsed v)).phone_number = getOpt v (lit "phone_number")) ∧
    ((finish (.parsed v)).order = .str (lit "Unknown") ∨
      (finish (.parsed v)).order = getOpt v (lit "order")) ∧
    ((finish (.parsed v)).quantity = .int 1 ∨
      parseInt (getOpt v (lit "quantity")) = some (some (finish (.parsed v)).quantity)) := by
  simp only [finish]
  cases h : coerce v with
  | none => exact ⟨Or.inl rfl, Or.inl rfl, Or.inl rfl, Or.inl rfl⟩
  | some r =>
    obtain ⟨e1, e2, e3, q, hq, hp⟩ := coerce_eq v r h
    have hq' : getOpt v (lit "quantity") = q := by simp [getOpt, hq]
    simp only [Option.getD_some]
    refine ⟨?_, ?_, ?_, ?_⟩
    · rw [e1]; unfold orElse; split
      · exact Or.inr rfl
      · exact Or.inl rfl
    · rw [e2]; unfold orElse; split
      · exact Or.inr rfl
      · exact Or.inl rfl
    · rw [e3]; unfold orElse; split
      · exact Or.inr rfl
      · exact Or.inl rfl
    · rw [hq']
      rcases hp with hp | ⟨_, hp⟩
      · exact Or.inr hp
      · exact Or.inl hp

theorem parseInt_integral (q : JVal) (x : JNum) (h : parseInt q = some (some x)) :
    (∃ n : Int, x = .int n ∧ isDouble n.natAbs = true) ∨ ∃ negative, x = .inf negative := by
  unfold parseInt at h
  obtain ⟨t, _, ht⟩ := Option.map_eq_some'.mp h
  exact parseIntStr_integral t x ht

theorem coerce_integral (v : JVal) (r : ExtractionResult) (h : coerce v = some r) :
    (∃ n : Int, r.quantity = .int n ∧ isDouble n.natAbs = true) ∨
      ∃ negative, r.quantity = .inf negative := by
  obtain ⟨_, _, _, q, _, hp⟩ := coerce_eq v r h
  rcases hp with hp | ⟨_, hp⟩
  · exact parseInt_integral q _ hp
  · exact Or.inl ⟨1, hp, by decide⟩

theorem finish_integral (outcome : CapabilityOutcome) :
    (∃ n : Int, (finish outcome).quantity = .int n ∧ isDouble n.natAbs = true) ∨
      ∃ negative, (finish outcome).quantity = .inf negative := by
  have hu : (∃ n : Int, unknownResult.quantity = .int n ∧ isDouble n.natAbs = true) ∨
      ∃ negative, unknownResult.quantity = .inf negative := Or.inl ⟨1, rfl, by decide⟩
  cases outcome with
  | requestThrows => exact hu
  | notJSON => exact hu
  | parsed v =>
    simp only [finish]
    cases h : coerce v with
    | none => exact hu
    | some r => exact coerce_integral v r h

/-- Counterexample to C4: on a reply whose `caller_name` is the number 5 and whose `quantity`
is the text `-3`, the result has a `caller_name` that is not a string and a negative
`quantity`, so the type invariant fails. -/
theorem invariant_fails_on_reply :
    (extractFromTranscript (fun _ => CapabilityOutcome.parsed negativeQuantityReply)
        (lit "CALLER: hi")).2.caller_name = JVal.num (JNum.int 5) ∧
    (extractFromTranscript (fun _ => CapabilityOutcome.parsed negativeQuantityReply)
        (lit "CALLER: hi")).2.quantity = JNum.int (-3) ∧
    ¬ satisfiesInvariant
      (extractFromTranscript (fun _ => CapabilityOutcome.parsed negativeQuantityReply)
        (lit "CALLER: hi")).2 :=
  ⟨rfl, rfl, fun h => absurd h.1 (by decide)⟩

/-- C4, amended: for every transcript and every capability outcome, `caller_name`,
`phone_number` and `order` of the result are truthy (so present, not `null`, not empty), each
being the string `Unknown` or the value the capability returned for it, unchanged; `quantity`
is a Number that is not NaN and has no fractional part, an integer of either sign or an
infinity: it is 1 when the request throws or the content is not JSON, and otherwise the
default 1 or what `parseInt` reads off the returned quantity. -/
theorem result_populated (capability : Request → CapabilityOutcome) (raw_transcript : JStr) :
    truthy (extractFromTranscript capability raw_transcript).2.caller_name = true ∧
    truthy (extractFromTranscript capability raw_transcript).2.phone_number = true ∧
    truthy (extractFromTranscript capability raw_transcript).2.order = true ∧
    ((∃ n : Int, (extractFromTranscript capability raw_transcript).2.quantity = .int n ∧
        isDouble n.natAbs = true) ∨
      ∃ negative, (extractFromTranscript capability raw_transcript).2.quantity =
        .inf negative) ∧
    (capability (extractFromTranscript capability raw_transcript).1 = .requestThrows ∨
      capability (extractFromTranscript capability raw_transcript).1 = .notJSON →
      (extractFromTranscript capability raw_transcript).2.quantity = .int 1) ∧
    ∀ v, capability (extractFromTranscript capability raw_transcript).1 = .parsed v →
      ((extractFromTranscript capability raw_transcript).2.caller_name = .str (lit "Unknown") ∨
        (extractFromTranscript capability raw_transcript).2.caller_name =
          getOpt v (lit "caller_name")) ∧
      ((extractFromTranscript capability raw_transcript).2.phone_number = .str (lit "Unknown") ∨
        (extractFromTranscript capability raw_transcript).2.phone_number =
          getOpt v (lit "phone_number")) ∧
      ((extractFromTranscript capability raw_transcript).2.order = .str (lit "Unknown") ∨
        (extractFromTranscript capability raw_transcript).2.order = getOpt v (lit "order")) ∧
      ((extractFromTranscript capability raw_transcript).2.quantity = .int 1 ∨
        parseInt (getOpt v (lit "quantity")) =
          some (some (extractFromTranscript capability raw_transcript).2.quantity)) := by
  obtain ⟨h1, h2, h3⟩ := finish_truthy (capability (requestFor (slice raw_transcript (-3000))))
  refine ⟨h1, h2, h3,
    finish_integral (capability (requestFor (slice raw_transcript (-3000)))), ?_, ?_⟩
  · intro h
    show (finish (capability (requestFor (slice raw_transcript (-3000))))).quantity = .int 1
    rcases h with h | h
    · have h' : capability (requestFor (slice raw_transcript (-3000))) = .requestThrows := h
      rw [h']
      rfl
    · have h' : capability (requestFor (slice raw_transcript (-3000))) = .notJSON := h
      rw [h']
      rfl
  · intro v hv
    have e : (extractFromTranscript capability raw_transcript).2 = finish (.parsed v) := by
      show finish (capability (requestFor (slice raw_transcript (-3000)))) = _
      have hv' : capability (requestFor (slice raw_transcript (-3000))) = .parsed v := hv
      rw [hv']
    rw [e]
    exact finish_parsed_fields v

/-- Witness of C4, amended: the reply with a numeric name and the quantity text `-3`. -/
theorem result_populated_witness :
    (extractFromTranscript (fun _ => CapabilityOutcome.parsed negativeQuantityReply)
        (lit "CALLER: hi")).2.quantity = JNum.int 1 ∨
      parseInt (getOpt negativeQuantityReply (lit "quantity")) =
        some (some (extractFromTranscript (fun _ => CapabilityOutcome.parsed negativeQuantityReply)
          (lit "CALLER: hi")).2.quantity) :=
  ((result_populated (fun _ => CapabilityOutcome.parsed negativeQuantityReply)
    (lit "CALLER: hi")).2.2.2.2.2 negativeQuantityReply rfl).2.2.2

theorem finish_overflow :
    (finish (.parsed (.obj overflowProps))).quantity = .inf false := by
  rw [finish_parsed_obj]
  have h : parseInt ((lookup (lit "quantity") overflowProps).getD .undefined) =
      some (some (.inf false)) := parseInt_overflow_sample.1
  rw [h]

/-- Counterexample to C5: the quantity `-1e21`, a negative integer, is returned as `-1`,
because `Number::toString` prints it as `-1e+21`; the numeral of `-(2^53 + 1)` is returned as
`-(2^53)`, the nearest Number; and a numeral of 310 digits is returned as `Infinity`, which is
not an integer and is not replaced by 1. -/
theorem large_quantity_changed :
    lookup (lit "quantity") minusSextillionProps = some (JVal.num (JNum.int (-(10 ^ 21)))) ∧
    isDouble (10 ^ 21) = true ∧
    (extractFromTranscript (fun _ => CapabilityOutcome.parsed (JVal.obj minusSextillionProps))
      (lit "CALLER: hi")).2.quantity = JNum.int (-1) ∧
    (extractFromTranscript (fun _ => CapabilityOutcome.parsed (JVal.obj unsafeNumeralProps))
      (lit "CALLER: hi")).2.quantity = JNum.int (-9007199254740992) ∧
    (extractFromTranscript (fun _ => CapabilityOutcome.parsed (JVal.obj overflowProps))
      (lit "CALLER: hi")).2.quantity = JNum.inf false :=
  ⟨rfl, by decide, by decide, by decide, finish_overflow⟩

/-- C5, amended: for every parsed JSON object the returned `quantity` is what
`parseInt(_, 10)` reads off the object's `quantity` value when that is not NaN, and 1
otherwise; what `parseInt` reads is the integer of the leading numeral as a Number (rounded
to the nearest one, an infinity beyond their range).  The text `3` gives 3, the text `abc`
gives 1, an absent quantity gives 1, the number 0 gives 0, and every integral Number that is
zero or negative is returned as it is when its magnitude is below `1e21`, or when it is given
as its plain numeral. -/
theorem quantity_coercion (capability : Request → CapabilityOutcome) (raw_transcript : JStr)
    (props : List (JStr × JVal))
    (h : capability (extractFromTranscript capability raw_transcript).1 = .parsed (.obj props)) :
    (extractFromTranscript capability raw_transcript).2.quantity =
      (match parseInt ((lookup (lit "quantity") props).getD .undefined) with
        | some (some x) => x
        | _ => .int 1) ∧
    ((∃ n : Int, (extractFromTranscript capability raw_transcript).2.quantity = .int n ∧
        isDouble n.natAbs = true) ∨
      ∃ negative, (extractFromTranscript capability raw_transcript).2.quantity =
        .inf negative) ∧
    (lookup (lit "quantity") props = some (.str (lit "3")) →
      (extractFromTranscript capability raw_transcript).2.quantity = .int 3) ∧
    (lookup (lit "quantity") props = some (.str (lit "abc")) →
      (extractFromTranscript capability raw_transcript).2.quantity = .int 1) ∧
    (lookup (lit "quantity") props = none →
      (extractFromTranscript capability raw_transcript).2.quantity = .int 1) ∧
    (lookup (lit "quantity") props = some (.num (.int 0)) →
      (extractFromTranscript capability raw_transcript).2.quantity = .int 0) ∧
    (∀ n : Int, n ≤ 0 → isDouble n.natAbs = true →
      (lookup (lit "quantity") props = some (.num (.int n)) ∧ n.natAbs < 10 ^ 21) ∨
        lookup (lit "quantity") props = some (.str (intToString n)) →
      (extractFromTranscript capability raw_transcript).2.quantity = .int n) := by
  have h' : capability (requestFor (slice raw_transcript (-3000))) = .parsed (.obj props) := h
  have e : (extractFromTranscript capability raw_transcript).2 = finish (.parsed (.obj props)) := by
    show finish (capability (requestFor (slice raw_transcript (-3000)))) = _
    rw [h']
  have key : (extractFromTranscript capability raw_transcript).2.quantity =
      (match parseInt ((lookup (lit "quantity") props).getD .undefined) with
        | some (some x) => x
        | _ => .int 1) := by
    rw [e, finish_parsed_obj]
    cases hp : parseInt ((lookup (lit "quantity") props).getD .undefined) with
    | none => rfl
    | some qi => cases qi <;> rfl
  refine ⟨key, ?_, ?_, ?_, ?_, ?_, ?_⟩
  · rw [e]
    exact finish_integral _
  · intro hq
    rw [key, hq]
    rfl
  · intro hq
    rw [key, hq]
    rfl
  · intro hq
    rw [key, hq]
    rfl
  · intro hq
    rw [key, hq]
    rfl
  · intro n _ hd hq
    rw [key]
    rcases hq with ⟨hq, hlt⟩ | hq
    · rw [hq]
      simp only [Option.getD_some, parseInt_int n hd hlt]
    · rw [hq]
      simp only [Option.getD_some, parseInt, toStr, Option.map, parseIntStr_intToString n hd]

/-- Witness of C5, amended: a reply whose quantity is the number `-4`. -/
theorem quantity_coercion_witness :
    (extractFromTranscript
      (fun _ => CapabilityOutcome.parsed (JVal.obj [(lit "quantity", JVal.num (JNum.int (-4)))]))
      (lit "CALLER: hi")).2.quantity = JNum.int (-4) :=
  (quantity_coercion
    (fun _ => CapabilityOutcome.parsed (JVal.obj [(lit "quantity", JVal.num (JNum.int (-4)))]))
    (lit "CALLER: hi") [(lit "quantity", JVal.num (JNum.int (-4)))] rfl).2.2.2.2.2.2 (-4)
    (by decide) (by decide) (Or.inl ⟨rfl, by decide⟩)

theorem lookup_toJSON_quantity (a b c d : JVal) :
    lookup (lit "quantity")
      [(lit "caller_name", a), (lit "phone_number", b), (lit "order", c), (lit "quantity", d)] =
      some d := rfl

theorem lookup_toJSON_caller_name (a b c d : JVal) :
    lookup (lit "caller_name")
      [(lit "caller_name", a), (lit "phone_number", b), (lit "order", c), (lit "quantity", d)] =
      some a := rfl

theorem lookup_toJSON_phone_number (a b c d : JVal) :
    lookup (lit "phone_number")
      [(lit "caller_name", a), (lit "phone_number", b), (lit "order", c), (lit "quantity", d)] =
      some b := rfl

theorem lookup_toJSON_order (a b c d : JVal) :
    lookup (lit "order")
      [(lit "caller_name", a), (lit "phone_number", b), (lit "order", c), (lit "quantity", d)] =
      some c := rfl

theorem orElse_of_truthy (a b : JVal) (h : truthy a = true) : orElse a b = a := by
  simp [orElse, h]

theorem orElse_of_falsy (a b : JVal) (h : truthy a = false) : orElse a b = b := by
  simp [orElse, h]

theorem coerce_toJSON (v : JVal) (r : ExtractionResult) (n : Int) (h : coerce v = some r)
    (hn : r.quantity = .int n) (hlt : n.natAbs < 10 ^ 21) : coerce r.toJSON = some r := by
  obtain ⟨e1, e2, e3, _⟩ := coerce_eq v r h
  have t1 : truthy r.caller_name = true := by rw [e1]; exact truthy_orElse _ _ truthy_unknown
  have t2 : truthy r.phone_number = true := by rw [e2]; exact truthy_orElse _ _ truthy_unknown
  have t3 : truthy r.order = true := by rw [e3]; exact truthy_orElse _ _ truthy_unknown
  have hd : isDouble n.natAbs = true := by
    rcases coerce_integral v r h with ⟨m, hm, hmd⟩ | ⟨b, hb⟩
    · rw [hn] at hm
      cases hm
      exact hmd
    · rw [hn] at hb
      cases hb
  obtain ⟨c, p, o, q⟩ := r
  simp only at hn t1 t2 t3
  subst hn
  simp only [coerce, ExtractionResult.toJSON, getProp, getOpt, lookup_toJSON_quantity,
    lookup_toJSON_caller_name, lookup_toJSON_phone_number, lookup_toJSON_order,
    Option.getD_some, parseInt_int n hd hlt, orElse_of_truthy _ _ t1, orElse_of_truthy _ _ t2,
    orElse_of_truthy _ _ t3]

theorem isStr_getD (o : Option JVal) (h : (o.getD .undefined).isStr = true) :
    ∃ s, o = some (.str s) := by
  cases o with
  | none => simp [JVal.isStr] at h
  | some v =>
    cases v <;> simp [JVal.isStr] at h
    exact ⟨_, rfl⟩

theorem isNonNegInt_getD (o : Option JVal) (h : (o.getD .undefined).isNonNegInt = true) :
    ∃ n : Int, 0 ≤ n ∧ isDouble n.natAbs = true ∧ o = some (.num (.int n)) := by
  cases o with
  | none => simp [JVal.isNonNegInt] at h
  | some v =>
    cases v with
    | num x =>
      cases x with
      | int n =>
        simp only [Option.getD_some, JVal.isNonNegInt, Bool.and_eq_true, decide_eq_true_eq] at h
        exact ⟨n, h.1, h.2, rfl⟩
      | inf b => simp [JVal.isNonNegInt] at h
      | other r => simp [JVal.isNonNegInt] at h
    | _ => simp [JVal.isNonNegInt] at h

/-- Counterexample to C6: an object of the valid shape whose `caller_name` is the empty string
does not come back with its four values, the coercion step returns `Unknown` for the name; and
an object of the valid shape whose `quantity` is the integer `1e21` comes back with the
quantity 1. -/
theorem coercion_changes_empty_name :
    validShape emptyNameProps = true ∧
    (coerce (JVal.obj emptyNameProps)).map ExtractionResult.caller_name =
      some (JVal.str (lit "Unknown")) ∧
    (¬ ∃ r, coerce (JVal.obj emptyNameProps) = some r ∧ sameFourValues emptyNameProps r) ∧
    validShape sextillionProps = true ∧
    lookup (lit "quantity") sextillionProps = some (JVal.num (JNum.int (10 ^ 21))) ∧
    (coerce (JVal.obj sextillionProps)).map ExtractionResult.quantity = some (JNum.int 1) := by
  refine ⟨by decide, rfl, ?_, by decide, rfl, by decide⟩
  rintro ⟨r, hr, hs, _⟩
  have hc : coerce (JVal.obj emptyNameProps) =
      some { caller_name := .str (lit "Unknown"), phone_number := .str (lit "555-1234"),
             order := .str (lit "pizza"), quantity := .int 2 } := rfl
  rw [hc] at hr
  cases hr
  have hl : lookup (lit "caller_name") emptyNameProps = some (.str []) := rfl
  rw [hl] at hs
  injection hs with hs
  injection hs with hs
  exact absurd hs (by decide)

/-- C6, amended: for every object of the valid shape (`caller_name`, `phone_number` and `order`
strings, `quantity` an integer `>= 0`) whose three strings are not empty and whose quantity is
below `1e21`, the coercion step returns the same four values; and the coercion step applied
to a result of it whose quantity is an integer of magnitude below `1e21` returns that
result. -/
theorem coercion_idempotent (props : List (JStr × JVal)) (hshape : validShape props = true)
    (hc : truthy (parsedField props (lit "caller_name")) = true)
    (hp : truthy (parsedField props (lit "phone_number")) = true)
    (ho : truthy (parsedField props (lit "order")) = true)
    (hq : ∀ n : Int, lookup (lit "quantity") props = some (.num (.int n)) → n < 10 ^ 21) :
    (∃ r, coerce (.obj props) = some r ∧ sameFourValues props r) ∧
    ∀ (v : JVal) (r : ExtractionResult) (n : Int), coerce v = some r → r.quantity = .int n →
      n.natAbs < 10 ^ 21 → coerce r.toJSON = some r := by
  refine ⟨?_, coerce_toJSON⟩
  simp only [validShape, Bool.and_eq_true] at hshape
  obtain ⟨⟨⟨s1, s2⟩, s3⟩, s4⟩ := hshape
  obtain ⟨c, ec⟩ := isStr_getD _ s1
  obtain ⟨p, ep⟩ := isStr_getD _ s2
  obtain ⟨o, eo⟩ := isStr_getD _ s3
  obtain ⟨n, hn0, hnd, en⟩ := isNonNegInt_getD _ s4
  have hlt : n.natAbs < 10 ^ 21 := by
    have := hq n en
    omega
  simp only [parsedField, ec, ep, eo, Option.getD_some] at hc hp ho
  refine ⟨{ caller_name := .str c, phone_number := .str p, order := .str o, quantity := .int n },
    ?_, ?_⟩
  · simp only [coerce, getProp, getOpt, ec, ep, eo, en, Option.getD_some,
      parseInt_int n hnd hlt, orElse_of_truthy _ _ hc, orElse_of_truthy _ _ hp,
      orElse_of_truthy _ _ ho]
  · exact ⟨ec.symm, ep.symm, eo.symm, en.symm⟩

/-- Witness of C6, amended: a reply with a name, a number, an order and the quantity 2. -/
theorem coercion_idempotent_witness :
    ∃ r, coerce (JVal.obj johnProps) = some r ∧ sameFourValues johnProps r :=
  (coercion_idempotent johnProps (by decide) (by decide) (by decide) (by decide)
    (fun n h => by
      have h2 : lookup (lit "quantity") johnProps = some (.num (.int 2)) := rfl
      rw [h2] at h
      simp only [Option.some.injEq, JVal.num.injEq, JNum.int.injEq] at h
      omega)).1

/-- Counterexample to C10: with a truthy `caller_name` in the parsed object, the returned
`caller_name` is `Unknown` and not that value, because of the value of `quantity`: an object
with an own property `toString` makes `parseInt` throw, and the `catch` returns the defaults.
With the quantity 2 in its place the name is returned. -/
theorem shadowed_quantity_resets_name :
    lookup (lit "caller_name") shadowedQuantityProps = some (JVal.str (lit "John")) ∧
    truthy (JVal.str (lit "John")) = true ∧
    (extractFromTranscript (fun _ => CapabilityOutcome.parsed (JVal.obj shadowedQuantityProps))
      (lit "CALLER: hi")).2.caller_name = JVal.str (lit "Unknown") ∧
    lit "Unknown" ≠ lit "John" ∧
    (extractFromTranscript (fun _ => CapabilityOutcome.parsed (JVal.obj johnProps))
      (lit "CALLER: hi")).2.caller_name = JVal.str (lit "John") :=
  ⟨rfl, by decide, rfl, by decide, rfl⟩

/-- C10, amended: for every parsed JSON object whose `quantity` value converts to a string
without throwing, and for each of `caller_name`, `phone_number` and `order` on its own, the
returned field is the parsed value itself when that value is truthy and `Unknown` when it is
absent or falsy; a present empty string, the number 0 and an absent property all give
`Unknown`.  Each of the three is determined by its own parsed value alone. -/
theorem text_fields_coercion (capability : Request → CapabilityOutcome) (raw_transcript : JStr)
    (props : List (JStr × JVal))
    (h : capability (extractFromTranscript capability raw_transcript).1 = .parsed (.obj props))
    (hq : (toStr (parsedField props (lit "quantity"))).isSome = true) :
    ((extractFromTranscript capability raw_transcript).2.caller_name =
        if truthy (parsedField props (lit "caller_name")) then
          parsedField props (lit "caller_name") else .str (lit "Unknown")) ∧
    ((extractFromTranscript capability raw_transcript).2.phone_number =
        if truthy (parsedField props (lit "phone_number")) then
          parsedField props (lit "phone_number") else .str (lit "Unknown")) ∧
    ((extractFromTranscript capability raw_transcript).2.order =
        if truthy (parsedField props (lit "order")) then
          parsedField props (lit "order") else .str (lit "Unknown")) ∧
    (∀ a : JVal, a = .str [] ∨ a = .num (.int 0) ∨ a = .undefined →
      (if truthy a then a else JVal.str (lit "Unknown")) = .str (lit "Unknown")) := by
  have e : (extractFromTranscript capability raw_transcript).2 = finish (.parsed (.obj props)) := by
    show finish (capability (requestFor (slice raw_transcript (-3000)))) = _
    have h' : capability (requestFor (slice raw_transcript (-3000))) = .parsed (.obj props) := h
    rw [h']
  rw [e, finish_parsed_obj]
  have hq' : ∃ qi, parseInt ((lookup (lit "quantity") props).getD .undefined) = some qi := by
    unfold parsedField at hq
    cases ht : toStr ((lookup (lit "quantity") props).getD .undefined) with
    | none => simp [ht] at hq
    | some t => exact ⟨parseIntStr t, by simp [parseInt, ht]⟩
  obtain ⟨qi, hqi⟩ := hq'
  rw [hqi]
  refine ⟨rfl, rfl, rfl, ?_⟩
  rintro a (rfl | rfl | rfl) <;> rfl

/-- Witness of C10, amended: the reply with an empty `caller_name`, which gives `Unknown`,
next to a `phone_number` that is returned as it is. -/
theorem text_fields_coercion_witness :
    (extractFromTranscript (fun _ => CapabilityOutcome.parsed (JVal.obj emptyNameProps))
      (lit "CALLER: hi")).2.caller_name = JVal.str (lit "Unknown") ∧
    (extractFromTranscript (fun _ => CapabilityOutcome.parsed (JVal.obj emptyNameProps))
      (lit "CALLER: hi")).2.phone_number = JVal.str (lit "555-1234") :=
  ⟨(text_fields_coercion (fun _ => CapabilityOutcome.parsed (JVal.obj emptyNameProps))
      (lit "CALLER: hi") emptyNameProps rfl (by decide)).1,
    (text_fields_coercion (fun _ => CapabilityOutcome.parsed (JVal.obj emptyNameProps))
      (lit "CALLER: hi") emptyNameProps rfl (by decide)).2.1⟩

/-! ## The handler -/

theorem getProp_of_truthy (v : JVal) (key : JStr) (h : truthy v = true) :
    getProp v key = some (getOpt v key) := by
  cases v <;> simp_all [truthy, getProp, getOpt]

theorem getOpt_of_falsy (v : JVal) (key : JStr) (h : truthy v = false) :
    getOpt v key = .undefined := by
  cases v with
  | obj props => simp [truthy] at h
  | _ => rfl

theorem truthy_of_getOpt_truthy (v : JVal) (key : JStr) (h : truthy (getOpt v key) = true) :
    truthy v = true := by
  cases hv : truthy v with
  | true => rfl
  | false => rw [getOpt_of_falsy v key hv] at h; exact absurd h (by decide)

theorem slice_eq_lastUnits (s : JStr) : slice s (-3000) = lastUnits 3000 s := by
  have hk : (max ((s.length : Int) + -3000) 0).toNat = s.length - 3000 := by omega
  unfold slice lastUnits
  simp only [show ((-3000 : Int) < 0) from by decide, if_true, hk]

theorem lastUnits_spec (k : Nat) (s : JStr) :
    (∃ front, front ++ lastUnits k s = s) ∧ (lastUnits k s).length = min s.length k ∧
      (s.length ≤ k → lastUnits k s = s) := by
  refine ⟨⟨s.take (s.length - k), List.take_append_drop _ _⟩, ?_, ?_⟩
  · simp only [lastUnits, List.length_drop]
    omega
  · intro h
    simp [lastUnits, Nat.sub_eq_zero_of_le h]

/-- What the handler does once lines 78-103 have produced a business name and a transcript. -/
theorem handler_ready (env : Env) (payload : JVal) (business_name : JVal) (raw : JStr)
    (h : prepare env payload = some (.ready business_name raw)) :
    (handler env payload).sent = [(extractFromTranscript env.capability raw).1] ∧
    (handler env payload).inserted =
      [{ created_at := env.now
         caller_name := (extractFromTranscript env.capability raw).2.caller_name
         phone_number := (extractFromTranscript env.capability raw).2.phone_number
         order := (extractFromTranscript env.capability raw).2.order
         quantity := (extractFromTranscript env.capability raw).2.quantity
         business_name := business_name
         call_length := raw.length
         raw_transcript := raw }] := by
  unfold handler
  simp only [h]
  split
  · exact ⟨rfl, rfl⟩
  · split <;> exact ⟨rfl, rfl⟩

/-- A run that handed a row to the store went through lines 78-103 without a throw. -/
theorem handler_inserted_inv (env : Env) (payload : JVal) (record : CallRecord)
    (h : record ∈ (handler env payload).inserted) :
    ∃ business_name raw, prepare env payload = some (.ready business_name raw) := by
  cases hp : prepare env payload with
  | none => simp [handler, hp] at h
  | some prepared =>
    cases prepared with
    | ignored => simp [handler, hp] at h
    | nonFinal => simp [handler, hp] at h
    | ready business_name raw => exact ⟨business_name, raw, rfl⟩

theorem includes_inv (xs : List JStr) (v : JVal) (h : includes xs v = true) :
    ∃ t, v = .str t ∧ t ∈ xs := by
  cases v <;> simp [includes] at h
  exact ⟨_, rfl, h⟩

theorem lowerStatus_str_inv (env : Env) (v : JVal) (t : JStr)
    (h : lowerStatus env v = some (.str t)) : ∃ s, v = .str s ∧ env.toLowerCase s = t := by
  cases v <;> simp [lowerStatus] at h
  exact ⟨_, rfl, h⟩

/-- What lines 78-103 have established when they reach the extraction step. -/
theorem prepare_ready_inv (env : Env) (payload : JVal) (business_name : JVal) (raw : JStr)
    (h : prepare env payload = some (.ready business_name raw)) :
    (∃ s, getOpt (getOpt payload (lit "message")) (lit "status") = .str s ∧
      env.toLowerCase s ∈ finalStatuses) ∧
    business_name =
      orElse
        (orElse (getOpt (getOpt (getOpt payload (lit "message")) (lit "assistant")) (lit "name"))
          (getOpt (getOpt (getOpt payload (lit "call")) (lit "assistant")) (lit "name")))
        (.str (lit "Unknown")) ∧
    ∃ items lines,
      orElse (getOpt (getOpt (getOpt payload (lit "message")) (lit "artifact")) (lit "messages"))
        (.arr []) = .arr items ∧
      renderLines env items = some lines ∧ raw = join (lit "\n") lines := by
  unfold prepare at h
  split at h
  · cases h
  · rename_i hpay
    have hpay' : truthy payload = true := by simpa using hpay
    rw [getProp_of_truthy payload _ hpay'] at h
    simp only at h
    split at h
    · cases h
    · cases hl : lowerStatus env (getOpt (getOpt payload (lit "message")) (lit "status")) with
      | none => simp [hl] at h
      | some status =>
        simp only [hl] at h
        split at h
        · cases h
        · rename_i hinc
          have hinc' : includes finalStatuses status = true := by simpa using hinc
          obtain ⟨t, rfl, ht⟩ := includes_inv _ _ hinc'
          obtain ⟨s, hs, hst⟩ := lowerStatus_str_inv env _ t hl
          refine ⟨⟨s, hs, by rw [hst]; exact ht⟩, ?_⟩
          split at h
          · rename_i items hitems
            cases hr : renderLines env items with
            | none => simp [hr] at h
            | some lines =>
              simp only [hr, Option.some.injEq, Prepared.ready.injEq] at h
              exact ⟨h.1.symm, items, lines, hitems, hr, h.2.symm⟩
          · cases h

/-- C2, the failing input evaluated: a finished call whose transcript line has no `role` is
answered with the internal error, whatever the capability and the store do; no request is sent
and no row reaches the store.  The sibling malformations are absorbed: a line with neither
`message` nor `content` is rendered with an empty text, and a missing `artifact` gives the
empty transcript, and in both cases one row is handed to the store. -/
theorem missing_role_internal_error (capability : Request → CapabilityOutcome)
    (insert : CallRecord → StoreOutcome) :
    (handler (envWith capability insert) missingRolePayload).response.outcome = .failed ∧
    (handler (envWith capability insert) missingRolePayload).response.status = 500 ∧
    (handler (envWith capability insert) missingRolePayload).sent = [] ∧
    (handler (envWith capability insert) missingRolePayload).inserted = [] ∧
    ((handler (envWith capability insert) missingTextPayload).inserted.map
      CallRecord.raw_transcript = [lit "USER: "]) ∧
    ((handler (envWith capability insert) missingArtifactPayload).inserted.map
      CallRecord.raw_transcript = [[]]) := by
  refine ⟨rfl, rfl, rfl, rfl, ?_, ?_⟩
  · rw [(handler_ready (envWith capability insert) missingTextPayload
      (.str (lit "Pizza Place")) (lit "USER: ") rfl).2]
    rfl
  · rw [(handler_ready (envWith capability insert) missingArtifactPayload
      (.str (lit "Unknown")) [] rfl).2]
    rfl

/-- Counterexample to C3: the status of the payload is the number 5, which is none of `end`,
`ended`, `completed`, and the handler answers with the internal error instead of the no-op
acknowledgment. -/
theorem numeric_status_internal_error :
    getOpt (getOpt numericStatusPayload (lit "message")) (lit "status") =
      JVal.num (JNum.int 5) ∧
    (handler sampleEnv numericStatusPayload).response.outcome = Outcome.failed ∧
    (handler sampleEnv numericStatusPayload).response.outcome ≠ Outcome.ignored :=
  ⟨rfl, rfl, by decide⟩

/-- C3, amended: for every payload in which `message` is absent or falsy, and for every payload
whose `message.status` is absent, `null`, or a string whose lower-cased form is none of `end`,
`ended`, `completed`, the handler answers with the no-op acknowledgment, sends nothing to the
capability and hands nothing to the store. -/
theorem nonactionable_ignored (env : Env) (payload : JVal)
    (h : truthy (getOpt payload (lit "message")) = false ∨
      (getOpt (getOpt payload (lit "message")) (lit "status")).isNullish = true ∨
      ∃ s, getOpt (getOpt payload (lit "message")) (lit "status") = .str s ∧
        env.toLowerCase s ∉ finalStatuses) :
    (handler env payload).response.outcome = .ignored ∧
    (handler env payload).response.status = 200 ∧
    (handler env payload).sent = [] ∧ (handler env payload).inserted = [] := by
  have key : prepare env payload = some .ignored ∨ prepare env payload = some .nonFinal := by
    unfold prepare
    cases hpay : truthy payload with
    | false => exact Or.inl (by simp)
    | true =>
      rw [getProp_of_truthy payload _ hpay]
      simp only [Bool.not_true, Bool.false_eq_true, if_false]
      cases hm : truthy (getOpt payload (lit "message")) with
      | false => exact Or.inl (by simp)
      | true =>
        simp only [Bool.not_true, Bool.false_eq_true, if_false]
        rcases h with h | h | ⟨s, hs, hn⟩
        · rw [hm] at h; cases h
        · right
          cases hst : getOpt (getOpt payload (lit "message")) (lit "status") <;>
            simp_all [JVal.isNullish, lowerStatus, includes]
        · right
          rw [hs]
          simp [lowerStatus, includes, hn]
  rcases key with key | key <;> simp [handler, key, Response.outcome, Response.status]

/-- Witness of C3, amended: a call that is still in progress. -/
theorem nonactionable_ignored_witness :
    (handler sampleEnv inProgressPayload).response.outcome = Outcome.ignored ∧
    (handler sampleEnv inProgressPayload).response.status = 200 ∧
    (handler sampleEnv inProgressPayload).sent = [] ∧
    (handler sampleEnv inProgressPayload).inserted = [] :=
  nonactionable_ignored sampleEnv inProgressPayload
    (Or.inr (Or.inr ⟨lit "in-progress", rfl, by decide⟩))

/-- C7: for every transcript of length `n`, the capability is sent the last `min(n, 3000)`
code units of it, after the fixed label of line 39, and the whole transcript when `n <= 3000`;
the handler sends that one request, and the row it hands to the store carries the full
transcript and its full length `n`. -/
theorem truncation_window (env : Env) (payload : JVal) (business_name : JVal) (raw : JStr)
    (h : prepare env payload = some (.ready business_name raw)) :
    (∀ (capability : Request → CapabilityOutcome) (t : JStr),
      (extractFromTranscript capability t).1.user = lit "Transcript:\n\n" ++ lastUnits 3000 t ∧
      (∃ front, front ++ lastUnits 3000 t = t) ∧
      (lastUnits 3000 t).length = min t.length 3000 ∧
      (t.length ≤ 3000 → lastUnits 3000 t = t)) ∧
    (handler env payload).sent = [requestFor (lastUnits 3000 raw)] ∧
    ∃ record, (handler env payload).inserted = [record] ∧ record.call_length = raw.length ∧
      record.raw_transcript = raw := by
  obtain ⟨hsent, hins⟩ := handler_ready env payload business_name raw h
  refine ⟨?_, ?_, _, hins, rfl, rfl⟩
  · intro capability t
    obtain ⟨h1, h2, h3⟩ := lastUnits_spec 3000 t
    refine ⟨?_, h1, h2, h3⟩
    show lit "Transcript:\n\n" ++ slice t (-3000) = _
    rw [slice_eq_lastUnits]
  · rw [hsent]
    show [requestFor (slice raw (-3000))] = _
    rw [slice_eq_lastUnits]

/-- Witness of C7: a transcript of 5000 code units is sent as its last 3000, and the row
records the length 5000. -/
theorem truncation_window_witness :
    (handler sampleEnv longPayload).sent = [requestFor (List.replicate 3000 97)] ∧
    (handler sampleEnv longPayload).inserted.map CallRecord.call_length = [5000] := by
  obtain ⟨_, hsent, record, hins, hlen, _⟩ :=
    truncation_window sampleEnv longPayload (.str (lit "Pizza Place"))
      (lit "USER: " ++ List.replicate 4994 97) rfl
  have hl : (lit "USER: " ++ List.replicate 4994 97).length = 5000 := by
    rw [List.length_append, List.length_replicate]
    rfl
  have hw : lastUnits 3000 (lit "USER: " ++ List.replicate 4994 97) = List.replicate 3000 97 := by
    unfold lastUnits
    rw [hl, show (5000 - 3000 : Nat) = (lit "USER: ").length + 1994 from rfl, List.drop_append,
      List.drop_replicate]
  rw [hsent, hins, hw]
  simp only [List.map, hlen, hl, and_self]

/-- Counterexample to C8: `message.assistant.name` is present, as the empty string, and the
row takes its `business_name` from `call.assistant.name` instead. -/
theorem empty_assistant_name_falls_through :
    getOpt (getOpt (getOpt emptyAssistantNamePayload (lit "message")) (lit "assistant"))
      (lit "name") = JVal.str [] ∧
    (handler sampleEnv emptyAssistantNamePayload).inserted.map CallRecord.business_name =
      [JVal.str (lit "Pizza Place")] ∧
    lit "Pizza Place" ≠ [] := by
  refine ⟨rfl, ?_, by decide⟩
  rw [(handler_ready sampleEnv emptyAssistantNamePayload (.str (lit "Pizza Place"))
    (lit "USER: two pizzas please") rfl).2]
  rfl

/-- C8, amended: on every row the handler hands to the store, `business_name` is
`message.assistant.name` whenever that name is truthy (present and not empty), even if
`call.assistant.name` is present and differs; otherwise it is `call.assistant.name` when that
is truthy; otherwise it is `Unknown`. -/
theorem business_name_priority (env : Env) (payload : JVal) (record : CallRecord)
    (h : record ∈ (handler env payload).inserted) :
    (truthy (getOpt (getOpt (getOpt payload (lit "message")) (lit "assistant")) (lit "name")) =
        true →
      record.business_name =
        getOpt (getOpt (getOpt payload (lit "message")) (lit "assistant")) (lit "name")) ∧
    (truthy (getOpt (getOpt (getOpt payload (lit "message")) (lit "assistant")) (lit "name")) =
        false →
      truthy (getOpt (getOpt (getOpt payload (lit "call")) (lit "assistant")) (lit "name")) =
        true →
      record.business_name =
        getOpt (getOpt (getOpt payload (lit "call")) (lit "assistant")) (lit "name")) ∧
    (truthy (getOpt (getOpt (getOpt payload (lit "message")) (lit "assistant")) (lit "name")) =
        false →
      truthy (getOpt (getOpt (getOpt payload (lit "call")) (lit "assistant")) (lit "name")) =
        false →
      record.business_name = .str (lit "Unknown")) := by
  obtain ⟨business_name, raw, hp⟩ := handler_inserted_inv env payload record h
  obtain ⟨_, hins⟩ := handler_ready env payload business_name raw hp
  obtain ⟨_, hb, _⟩ := prepare_ready_inv env payload business_name raw hp
  rw [hins, List.mem_singleton] at h
  subst h
  simp only
  rw [hb]
  refine ⟨?_, ?_, ?_⟩
  · intro ha
    rw [orElse_of_truthy _ _ ha, orElse_of_truthy _ _ ha]
  · intro ha hc
    rw [orElse_of_falsy _ _ ha, orElse_of_truthy _ _ hc]
  · intro ha hc
    rw [orElse_of_falsy _ _ ha, orElse_of_falsy _ _ hc]

/-- Witness of C8, amended: both names are present and differ, and the name on the message is
the one recorded. -/
theorem business_name_priority_witness :
    getOpt (getOpt (getOpt twoNamesPayload (lit "call")) (lit "assistant")) (lit "name") =
      JVal.str (lit "Burger Bar") ∧
    twoNamesRecord.business_name =
      getOpt (getOpt (getOpt twoNamesPayload (lit "message")) (lit "assistant")) (lit "name") :=
  ⟨rfl, (business_name_priority sampleEnv twoNamesPayload twoNamesRecord
    (by
      rw [(handler_ready sampleEnv twoNamesPayload (.str (lit "Pizza Place"))
        (lit "USER: I would like 2 pizzas\nBOT: Got it") rfl).2]
      exact List.mem_singleton.mpr rfl)).1 (by decide)⟩

theorem truthy_of_getOpt_str (v : JVal) (key s : JStr) (h : getOpt v key = .str s) :
    truthy v = true := by
  cases v with
  | obj props => rfl
  | _ => simp [getOpt, getProp] at h

theorem renderLine_of_isLine (env : Env) (m : JVal) (h : isLine m = true) :
    renderLine env m = some (env.toUpperCase (lineRole m) ++ lit ": " ++ lineText m) := by
  simp only [isLine, Bool.and_eq_true] at h
  obtain ⟨hrole, htext⟩ := h
  cases hr : getOpt m (lit "role") with
  | str role =>
    have hm : truthy m = true := truthy_of_getOpt_str m _ role hr
    simp only [renderLine, lineRole, lineText, getProp_of_truthy m _ hm, hr]
    cases hmsg : truthy (getOpt m (lit "message")) with
    | true =>
      simp only [hmsg, if_true] at htext
      obtain ⟨text, ht⟩ := Option.isSome_iff_exists.mp htext
      rw [orElse_of_truthy _ (getOpt m (lit "content")) hmsg, orElse_of_truthy _ _ hmsg]
      simp [ht]
    | false =>
      simp only [hmsg, Bool.false_eq_true, if_false] at htext
      cases hcon : truthy (getOpt m (lit "content")) with
      | true =>
        simp only [hcon, if_true] at htext
        obtain ⟨text, ht⟩ := Option.isSome_iff_exists.mp htext
        rw [orElse_of_falsy _ (getOpt m (lit "content")) hmsg, orElse_of_truthy _ _ hcon]
        simp [ht]
      | false =>
        rw [orElse_of_falsy _ (getOpt m (lit "content")) hmsg, orElse_of_falsy _ _ hcon]
        simp [toStr]
  | _ => simp [hr, JVal.isStr] at hrole

theorem renderLines_of_isLine (env : Env) (lines : List JVal)
    (h : ∀ m ∈ lines, isLine m = true) :
    renderLines env lines =
      some (lines.map (fun m => env.toUpperCase (lineRole m) ++ lit ": " ++ lineText m)) := by
  induction lines with
  | nil => rfl
  | cons m rest ih =>
    simp only [renderLines, renderLine_of_isLine env m (h m (List.mem_cons_self _ _)),
      ih (fun x hx => h x (List.mem_cons_of_mem _ hx)), List.map]

/-- Counterexample to C9: the only transcript line has a string role, and its `message` is an
object with an own property `toString`; the template literal of line 100 throws on it, the
handler answers with the internal error, and no row with a `raw_transcript` exists. -/
theorem shadowed_text_internal_error :
    getOpt shadowedTextLine (lit "role") = JVal.str (lit "user") ∧
    renderLine sampleEnv shadowedTextLine = none ∧
    (handler sampleEnv shadowedTextPayload).response.outcome = Outcome.failed ∧
    (handler sampleEnv shadowedTextPayload).inserted = [] :=
  ⟨rfl, rfl, rfl, rfl⟩

/-- C9, amended: for every payload with a final status whose `message.artifact.messages` is a
list of lines with string roles whose text converts to a string (as every string, number and
boolean does), the row handed to the store has as `raw_transcript` the lines in arrival
order, each rendered as the upper-cased role, then `: `, then the text, joined by single
newlines, where the text is the `message` field, else the `content` field, else the empty
string (a field that is absent or falsy is passed over); an absent or empty list gives the
empty transcript. -/
theorem transcript_rendering (env : Env) (payload : JVal) (s : JStr) (lines : List JVal)
    (hstatus : getOpt (getOpt payload (lit "message")) (lit "status") = .str s)
    (hfinal : env.toLowerCase s ∈ finalStatuses)
    (hmessages :
      getOpt (getOpt (getOpt payload (lit "message")) (lit "artifact")) (lit "messages") =
        .arr lines ∨
      (truthy (getOpt (getOpt (getOpt payload (lit "message")) (lit "artifact"))
        (lit "messages")) = false ∧ lines = []))
    (hlines : ∀ m ∈ lines, isLine m = true) :
    ∃ record, (handler env payload).inserted = [record] ∧
      record.raw_transcript =
        join (lit "\n")
          (lines.map (fun m => env.toUpperCase (lineRole m) ++ lit ": " ++ lineText m)) ∧
      (lines = [] → record.raw_transcript = []) := by
  have hmsg : truthy (getOpt payload (lit "message")) = true :=
    truthy_of_getOpt_str _ _ s hstatus
  have hpay : truthy payload = true := truthy_of_getOpt_truthy _ _ hmsg
  have hitems :
      orElse (getOpt (getOpt (getOpt payload (lit "message")) (lit "artifact")) (lit "messages"))
        (.arr []) = .arr lines := by
    rcases hmessages with hm | ⟨hm, hl⟩
    · rw [hm]; rfl
    · rw [orElse_of_falsy _ _ hm, hl]
  have hp : prepare env payload =
      some (.ready
        (orElse
          (orElse (getOpt (getOpt (getOpt payload (lit "message")) (lit "assistant")) (lit "name"))
            (getOpt (getOpt (getOpt payload (lit "call")) (lit "assistant")) (lit "name")))
          (.str (lit "Unknown")))
        (join (lit "\n")
          (lines.map (fun m => env.toUpperCase (lineRole m) ++ lit ": " ++ lineText m)))) := by
    unfold prepare
    simp only [hpay, getProp_of_truthy payload _ hpay, hmsg, hstatus, lowerStatus, includes,
      hfinal, hitems, renderLines_of_isLine env lines hlines, Bool.not_true, Bool.false_eq_true,
      if_false, decide_True]
  obtain ⟨_, hins⟩ := handler_ready env payload _ _ hp
  refine ⟨_, hins, rfl, ?_⟩
  intro hl
  subst hl
  rfl

/-- Witness of C9, amended: a finished call of two lines. -/
theorem transcript_rendering_witness :
    ∃ record, (handler sampleEnv twoNamesPayload).inserted = [record] ∧
      record.raw_transcript = lit "USER: I would like 2 pizzas\nBOT: Got it" := by
  obtain ⟨record, hins, hraw, _⟩ :=
    transcript_rendering sampleEnv twoNamesPayload (lit "ENDED")
      [lineOf (lit "user") (lit "I would like 2 pizzas"), lineOf (lit "bot") (lit "Got it")]
      rfl (by decide) (Or.inl rfl) (by decide)
  exact ⟨record, hins, hraw⟩

end Vaas
